import Mathlib

/-!
Verification development for the TBTK spectral-property extraction and
many-body solver pipeline.  The definitions below are shallow embeddings of
the C++ sources: the generalized multi-index iteration engine and LDOS
extraction of PropertyExtractorChebyshev.cpp, the FLEX self-consistency loop
of Solver/FLEX.cpp, the cache-invalidation setters of
SusceptibilityCalculator.h, and the spatial partition tree of
StateTreeNode.cpp.  C++ doubles are modelled as elements of a linear ordered
field (rationals for decidable evaluation, reals where a square root is
taken), ints as unbounded integers, and fatal errors (TBTKAssert / TBTKExit /
exit(1)) as error values of Except or dedicated outcome types.
-/

namespace TBTK

/-- Modelled from the spec: the numeric sentinel values of the wildcard
subindices come from Index.h, which is not among the sources; the spec fixes
their roles (IDX_ALL iterates and advances the offset, IDX_SUM_ALL iterates
and accumulates into one slot, IDX_SPIN marks the spin axis) and the
comparisons in PropertyExtractorChebyshev.cpp require every wildcard to be
negative and the iterate-and-offset wildcards to compare below IDX_SUM_ALL. -/
def IDX_SUM_ALL : Int := -1

/-- Modelled from the spec: the iterate-and-offset wildcard; negative and
below IDX_SUM_ALL (see IDX_SUM_ALL). -/
def IDX_ALL : Int := -2

/-- Modelled from the spec: the spin-axis wildcard; negative and below
IDX_SUM_ALL (see IDX_SUM_ALL). -/
def IDX_SPIN : Int := -6

/-- Index of the last negative entry of a pattern, mirroring the descending
scan at the top of PropertyExtractorChebyshev::calculate:
the loop runs currentSubindex from size-1 down to 0 and stops at the first
entry < 0; the result is none when no entry is negative. -/
def lastNegIdx : List Int → Option Nat
  | [] => none
  | x :: xs =>
    match lastNegIdx xs with
    | some i => some (i + 1)
    | none => if x < 0 then some 0 else none

/-- Number of negative entries of a pattern; each recursive call of
calculate replaces one negative entry by a loop variable n ≥ 0, so this
bounds the recursion depth. -/
def negCount (l : List Int) : Nat := l.countP (fun x => decide (x < 0))

/-- The for-loop body of PropertyExtractorChebyshev::calculate: iterate the
loop variable n over the remaining iterations, recursing with the pattern's
subindex i set to n, and advancing currentOffset by offsetMultiplier after
every iteration unless the subindex is an IDX_SUM_ALL subindex.  The
recursive call of calculate is passed as the parameter f. -/
def calcLoop (f : List Int → Int → Int → List (List Int × Int)) (i : Nat)
    (isSumIndex : Bool) (pattern : List Int) (offsetMultiplier nextOffsetMultiplier : Int) :
    Nat → Nat → Int → List (List Int × Int)
  | _, 0, _ => []
  | n, m + 1, currentOffset =>
    f (pattern.set i (Int.ofNat n)) currentOffset nextOffsetMultiplier ++
      calcLoop f i isSumIndex pattern offsetMultiplier nextOffsetMultiplier (n + 1) m
        (if isSumIndex then currentOffset else currentOffset + offsetMultiplier)

/-- PropertyExtractorChebyshev::calculate, embedded as the trace of callback
invocations: the list of (concrete index, offset) pairs in invocation order.
The scan for the last negative subindex, the offset-multiplier update for
subindices below IDX_SUM_ALL, the IDX_SUM_ALL test and the loop are taken
directly from the source; the fuel argument bounds the recursion depth,
which in the source is bounded by the number of negative subindices (one is
resolved per invocation). -/
def calcTraceAux (ranges : List Int) : Nat → List Int → Int → Int → List (List Int × Int)
  | 0, _, _, _ => []
  | fuel + 1, pattern, currentOffset, offsetMultiplier =>
    match lastNegIdx pattern with
    | none => [(pattern, currentOffset)]
    | some i =>
      let p := pattern.getD i 0
      let r := ranges.getD i 0
      let nextOffsetMultiplier :=
        if p < IDX_SUM_ALL then offsetMultiplier * r else offsetMultiplier
      let isSumIndex := p == IDX_SUM_ALL
      calcLoop (fun pat off mult => calcTraceAux ranges fuel pat off mult) i isSumIndex
        pattern offsetMultiplier nextOffsetMultiplier 0 r.toNat currentOffset

/-- The iteration engine with sufficient fuel (one unit per negative
subindex, plus the final callback level). -/
def calculate (pattern ranges : List Int) (currentOffset offsetMultiplier : Int) :
    List (List Int × Int) :=
  calcTraceAux ranges (negCount pattern + 1) pattern currentOffset offsetMultiplier

/-- The first loop of PropertyExtractorChebyshev::calculateLDOS (and of
calculateSP_LDOS): every ranges entry whose pattern entry is non-negative is
overwritten with 1.  The C++ loop runs over the pattern entries and writes
through ranges.at(n); the claims below always supply lists of equal length,
for which the zipWith is the exact behaviour. -/
def forceRanges (pattern ranges : List Int) : List Int :=
  List.zipWith (fun p r => if 0 ≤ p then 1 else r) pattern ranges

/-- The ldosArraySize loop of calculateLDOS: the product, over the entries of
ranges, of the entries whose pattern entry compares below IDX_SUM_ALL. -/
def ldosArraySize (pattern ranges : List Int) : Int :=
  (List.zipWith (fun p r => if p < IDX_SUM_ALL then r else 1) pattern ranges).foldl
    (fun acc r => acc * r) 1

/-- The body of calculateLDOSCallback for one callback invocation: for each
energy slot n < energyResolution, subtract Im(G(index,index)[n])/π from the
buffer cell energyResolution*offset + n.  The Green's function produced by
the Chebyshev solver (computed on the accelerator, outside the sources) is
abstracted as the function G from a pair of indices and an energy slot to a
complex value.  The buffer is modelled as a total map from cell positions to
reals, mirroring the raw pointer arithmetic of the source. -/
noncomputable def writeLDOS (G : List Int → List Int → Nat → Complex) (energyResolution : Nat)
    (index : List Int) (offset : Int) : Nat → (Int → ℝ) → (Int → ℝ)
  | 0, buf => buf
  | n + 1, buf =>
    let buf' := writeLDOS G energyResolution index offset n buf
    Function.update buf' ((energyResolution : Int) * offset + n)
      (buf' ((energyResolution : Int) * offset + n) - (G index index n).im / Real.pi)

/-- Application of calculateLDOSCallback to each entry of an invocation
trace, in invocation order. -/
noncomputable def applyLDOSTrace (G : List Int → List Int → Nat → Complex) (energyResolution : Nat) :
    List (List Int × Int) → (Int → ℝ) → (Int → ℝ)
  | [], buf => buf
  | (index, offset) :: rest, buf =>
    applyLDOSTrace G energyResolution rest
      (writeLDOS G energyResolution index offset energyResolution buf)

/-- The observable pieces of one PropertyExtractorChebyshev::calculateLDOS
call: the ranges after forcing fixed coordinates to 1, the allocated array
size, the freshly allocated zero-initialized buffer handed to the iteration
engine, the engine's invocation trace, and the buffer after all callbacks. -/
structure LDOSComputation where
  forcedRanges : List Int
  arraySize : Int
  initialBuffer : List ℝ
  trace : List (List Int × Int)
  finalBuffer : Int → ℝ

/-- PropertyExtractorChebyshev::calculateLDOS: force ranges of concrete
coordinates to 1, compute the array size, allocate and zero the buffer, and
drive the iteration engine with calculateLDOSCallback starting at offset 0
and offset multiplier 1. -/
noncomputable def calculateLDOS (G : List Int → List Int → Nat → Complex) (energyResolution : Nat)
    (pattern ranges : List Int) : LDOSComputation :=
  let forced := forceRanges pattern ranges
  let size := ldosArraySize pattern forced
  { forcedRanges := forced
    arraySize := size
    initialBuffer := List.replicate size.toNat 0
    trace := calculate pattern forced 0 1
    finalBuffer := applyLDOSTrace G energyResolution (calculate pattern forced 0 1) (fun _ => 0) }

/-- Outcome of a PropertyExtractorChebyshev call that can fail: a fatal
error terminates the process (exit(1) / TBTKExit), nullResult is an error
message followed by return NULL, and ok carries the produced data. -/
inductive SPOutcome where
  | fatal : SPOutcome
  | nullResult : SPOutcome
  | ok : Int → (Int → Complex) → SPOutcome

/-- The body of calculateSP_LDOSCallback for one callback invocation: for
each of the four spin sectors n (to-spin n/2, from-spin n%2) and each energy
slot e, write G(to,from)[e] into buffer cell
4*energyResolution*offset + 4*e + n.  The inner energy loop is embedded by
recursion on the energy counter. -/
noncomputable def writeSPEnergy (G : List Int → List Int → Nat → Complex) (energyResolution : Nat)
    (toIndex fromIndex : List Int) (offset : Int) (n : Nat) :
    Nat → (Int → Complex) → (Int → Complex)
  | 0, buf => buf
  | e + 1, buf =>
    let buf' := writeSPEnergy G energyResolution toIndex fromIndex offset n e buf
    Function.update buf' (4 * (energyResolution : Int) * offset + 4 * e + n)
      (G toIndex fromIndex e)

/-- The outer spin-sector loop of calculateSP_LDOSCallback (n = 0..3). -/
noncomputable def writeSP (G : List Int → List Int → Nat → Complex) (energyResolution : Nat)
    (spinIndex : Nat) (index : List Int) (offset : Int) :
    Nat → (Int → Complex) → (Int → Complex)
  | 0, buf => buf
  | n + 1, buf =>
    let buf' := writeSP G energyResolution spinIndex index offset n buf
    writeSPEnergy G energyResolution (index.set spinIndex (n / 2)) (index.set spinIndex (n % 2))
      offset n energyResolution buf'

/-- Application of calculateSP_LDOSCallback to each entry of an invocation
trace, in invocation order. -/
noncomputable def applySPTrace (G : List Int → List Int → Nat → Complex) (energyResolution : Nat)
    (spinIndex : Nat) : List (List Int × Int) → (Int → Complex) → (Int → Complex)
  | [], buf => buf
  | (index, offset) :: rest, buf =>
    applySPTrace G energyResolution spinIndex rest
      (writeSP G energyResolution spinIndex index offset 4 buf)

/-- PropertyExtractorChebyshev::calculateSP_LDOS: scan the pattern for the
first IDX_SPIN subindex; when none is found, print an error message and
return NULL (the process keeps running).  Otherwise pin the spin axis to
coordinate 0 with range 1, force ranges of concrete coordinates to 1,
allocate 4*sp_ldosArraySize complex zeros and drive the iteration engine
with calculateSP_LDOSCallback. -/
noncomputable def calculateSP_LDOS (G : List Int → List Int → Nat → Complex) (energyResolution : Nat)
    (pattern ranges : List Int) : SPOutcome :=
  match pattern.findIdx? (fun x => x == IDX_SPIN) with
  | none => SPOutcome.nullResult
  | some spinIndex =>
    let pattern' := pattern.set spinIndex 0
    let ranges' := (ranges.set spinIndex 1)
    let forced := forceRanges pattern' ranges'
    let size := ldosArraySize pattern' forced
    SPOutcome.ok (4 * size)
      (applySPTrace G energyResolution spinIndex (calculate pattern' forced 0 1) (fun _ => 0))

/-- Outcome of the PropertyExtractorChebyshev constructor: fatal models
exit(1); ok records whether a lookup table was generated and whether it was
loaded to the accelerator. -/
inductive ChebyshevConstructOutcome where
  | fatal : ChebyshevConstructOutcome
  | ok : Bool → Bool → ChebyshevConstructOutcome
deriving DecidableEq

/-- The PropertyExtractorChebyshev constructor: with useLookupTable the
lookup table is generated (and loaded to the accelerator when
useGPUToGenerateGreensFunctions); without it, requesting accelerator-based
Green's-function generation is a fatal error (exit(1)). -/
def chebyshevConstruct (numCoefficients energyResolution : Int)
    (useGPUToCalculateCoefficients useGPUToGenerateGreensFunctions useLookupTable : Bool) :
    ChebyshevConstructOutcome :=
  if useLookupTable then ChebyshevConstructOutcome.ok true useGPUToGenerateGreensFunctions
  else if useGPUToGenerateGreensFunctions then ChebyshevConstructOutcome.fatal
  else ChebyshevConstructOutcome.ok false false

/-- Modelled from the spec: IndexedDataTree (not among the sources) is an
exact-key mapping from a composite index to a sequence of complex values,
cleared by clear(); it is modelled as an association list whose clear is the
empty list. -/
def IndexedDataTree : Type := List (List Int × List Complex)

/-- Calculation modes of the SusceptibilityCalculator. -/
inductive SCMode where
  | Lindhard : SCMode
  | Matsubara : SCMode

/-- Energy types of the SusceptibilityCalculator. -/
inductive SCEnergyType where
  | Real : SCEnergyType
  | Imaginary : SCEnergyType
  | Complex : SCEnergyType

/-- The mutable state of a SusceptibilityCalculator that the setters of
SuscesptibilityCalculator.h touch: the four cache trees, the mode/energy
configuration, the interaction parameters and the flag that marks the
charge/spin interaction amplitudes as generated. -/
structure SusceptibilityCalculator where
  susceptibilityTree : IndexedDataTree
  rpaSusceptibilityTree : IndexedDataTree
  rpaChargeSusceptibilityTree : IndexedDataTree
  rpaSpinSusceptibilityTree : IndexedDataTree
  susceptibilityMode : SCMode
  energyType : SCEnergyType
  susceptibilityEnergies : List Complex
  susceptibilityEnergiesAreInversionSymmetric : Bool
  susceptibilityIsSafeFromPoles : Bool
  U : Complex
  Up : Complex
  J : Complex
  Jp : Complex
  interactionAmplitudesAreGenerated : Bool

/-- SusceptibilityCalculator::setU: store U, clear the three RPA cache
trees and mark the interaction amplitudes for regeneration. -/
def SusceptibilityCalculator.setU (c : SusceptibilityCalculator) (U : Complex) :
    SusceptibilityCalculator :=
  { c with
    U := U
    rpaSusceptibilityTree := ([] : IndexedDataTree)
    rpaChargeSusceptibilityTree := ([] : IndexedDataTree)
    rpaSpinSusceptibilityTree := ([] : IndexedDataTree)
    interactionAmplitudesAreGenerated := false }

/-- SusceptibilityCalculator::setUp: store Up, clear the three RPA cache
trees and mark the interaction amplitudes for regeneration. -/
def SusceptibilityCalculator.setUp (c : SusceptibilityCalculator) (Up : Complex) :
    SusceptibilityCalculator :=
  { c with
    Up := Up
    rpaSusceptibilityTree := ([] : IndexedDataTree)
    rpaChargeSusceptibilityTree := ([] : IndexedDataTree)
    rpaSpinSusceptibilityTree := ([] : IndexedDataTree)
    interactionAmplitudesAreGenerated := false }

/-- SusceptibilityCalculator::setJ: store J, clear the three RPA cache
trees and mark the interaction amplitudes for regeneration. -/
def SusceptibilityCalculator.setJ (c : SusceptibilityCalculator) (J : Complex) :
    SusceptibilityCalculator :=
  { c with
    J := J
    rpaSusceptibilityTree := ([] : IndexedDataTree)
    rpaChargeSusceptibilityTree := ([] : IndexedDataTree)
    rpaSpinSusceptibilityTree := ([] : IndexedDataTree)
    interactionAmplitudesAreGenerated := false }

/-- SusceptibilityCalculator::setJp: store Jp, clear the three RPA cache
trees and mark the interaction amplitudes for regeneration. -/
def SusceptibilityCalculator.setJp (c : SusceptibilityCalculator) (Jp : Complex) :
    SusceptibilityCalculator :=
  { c with
    Jp := Jp
    rpaSusceptibilityTree := ([] : IndexedDataTree)
    rpaChargeSusceptibilityTree := ([] : IndexedDataTree)
    rpaSpinSusceptibilityTree := ([] : IndexedDataTree)
    interactionAmplitudesAreGenerated := false }

/-- SusceptibilityCalculator::setSusceptibilityEnergies: store the energy
list and clear the bare susceptibility cache tree together with the three
RPA cache trees. -/
def SusceptibilityCalculator.setSusceptibilityEnergies (c : SusceptibilityCalculator)
    (susceptibilityEnergies : List Complex) : SusceptibilityCalculator :=
  { c with
    susceptibilityEnergies := susceptibilityEnergies
    susceptibilityTree := ([] : IndexedDataTree)
    rpaSusceptibilityTree := ([] : IndexedDataTree)
    rpaChargeSusceptibilityTree := ([] : IndexedDataTree)
    rpaSpinSusceptibilityTree := ([] : IndexedDataTree) }

/-- The FLEX solver's stage tag. -/
inductive FLEXStage where
  | NotYetStarted : FLEXStage
  | GreensFunctionCalculated : FLEXStage
  | BareSusceptibilityCalculated : FLEXStage
  | RPASusceptibilitiesCalculated : FLEXStage
  | InteractionVertexCalculated : FLEXStage
  | SelfEnergyCalculated : FLEXStage
deriving DecidableEq

/-- The FLEX solver's norm selection. -/
inductive FLEXNorm where
  | Max : FLEXNorm
  | L2 : FLEXNorm
deriving DecidableEq

/-- The FLEX solver state touched by Solver::FLEX::run: the bare Green's
function, the current and previous Green's function data (the flat complex
data vectors of the Property::GreensFunction containers), the stage tag, the
convergence machinery and the iteration cap.  The per-stage observer
callback is modelled by the stageLog, which records the stage tag at each
point where the source would invoke the callback.  The iterationsRun field
counts executed main-loop iterations. -/
structure FLEXState where
  greensFunction0 : List Complex
  greensFunction : List Complex
  oldGreensFunction : List Complex
  selfEnergyStale : Bool
  norm : FLEXNorm
  convergenceParameter : ℝ
  tolerance : ℝ
  maxIterations : Nat
  stage : FLEXStage
  stageLog : List FLEXStage
  iterationsRun : Nat

/-- The single loop of FLEX::calculateConvergenceParameter for the Max norm:
one pass over the data computing the running maximum modulus of the old data
and the running maximum modulus of the elementwise difference. -/
noncomputable def flexMaxLoop : List (Complex × Complex) → ℝ × ℝ → ℝ × ℝ
  | [], acc => acc
  | p :: rest, (oldMax, differenceMax) =>
    flexMaxLoop rest
      (if Complex.abs p.1 > oldMax then Complex.abs p.1 else oldMax,
       if Complex.abs (p.1 - p.2) > differenceMax then Complex.abs (p.1 - p.2) else differenceMax)

/-- The single loop of FLEX::calculateConvergenceParameter for the L2 norm:
one pass accumulating the squared moduli of the old data and of the
elementwise difference. -/
noncomputable def flexL2Loop : List (Complex × Complex) → ℝ × ℝ → ℝ × ℝ
  | [], acc => acc
  | p :: rest, (oldL2, differenceL2) =>
    flexL2Loop rest (oldL2 + Complex.abs p.1 ^ 2, differenceL2 + Complex.abs (p.1 - p.2) ^ 2)

/-- FLEX::calculateConvergenceParameter: the ratio of the maximum modulus of
the elementwise difference to the maximum modulus of the old data (Max
norm), or of the summed squared moduli (L2 norm).  The source walks index n
over both data vectors after asserting equal sizes; the zip realizes the
same pairing for equal-size data. -/
noncomputable def calculateConvergenceParameter (norm : FLEXNorm)
    (oldData newData : List Complex) : ℝ :=
  match norm with
  | FLEXNorm.Max =>
    let r := flexMaxLoop (oldData.zip newData) (0, 0)
    r.2 / r.1
  | FLEXNorm.L2 =>
    let r := flexL2Loop (oldData.zip newData) (0, 0)
    r.2 / r.1

/-- One iteration of the main loop of FLEX::run, lines 73-107 of FLEX.cpp:
the bare susceptibility, RPA susceptibilities, interaction vertex and
self-energy stages (whose solvers live outside the sources; their net effect
on the Green's function over a full iteration is the parameter F), the
Green's-function recomputation preceded by saving the previous Green's
function, the stage-tag updates with their callback points, and the
termination test convergenceParameter < tolerance.  Note that the source
never recomputes convergenceParameter inside run. -/
noncomputable def flexIteration (F : List Complex → List Complex) (s : FLEXState) : FLEXState :=
  let s1 := { s with
    stage := FLEXStage.BareSusceptibilityCalculated
    stageLog := s.stageLog ++ [FLEXStage.BareSusceptibilityCalculated] }
  let s2 := { s1 with
    stage := FLEXStage.RPASusceptibilitiesCalculated
    stageLog := s1.stageLog ++ [FLEXStage.RPASusceptibilitiesCalculated] }
  let s3 := { s2 with
    stage := FLEXStage.InteractionVertexCalculated
    stageLog := s2.stageLog ++ [FLEXStage.InteractionVertexCalculated] }
  let s4 := { s3 with
    stage := FLEXStage.SelfEnergyCalculated
    stageLog := s3.stageLog ++ [FLEXStage.SelfEnergyCalculated] }
  { s4 with
    oldGreensFunction := s4.greensFunction
    greensFunction := F s4.greensFunction
    stage := FLEXStage.GreensFunctionCalculated
    stageLog := s4.stageLog ++ [FLEXStage.GreensFunctionCalculated]
    iterationsRun := s4.iterationsRun + 1 }

/-- The while loop of FLEX::run: while iteration++ < maxIterations, run one
iteration and break as soon as convergenceParameter < tolerance. -/
noncomputable def flexRunLoop (F : List Complex → List Complex) :
    Nat → FLEXState → FLEXState
  | 0, s => s
  | m + 1, s =>
    let s' := flexIteration F s
    if s'.convergenceParameter < s'.tolerance then s' else flexRunLoop F m s'

/-- FLEX::run: compute the bare Green's function (bootstrap; the
BlockDiagonalizer lives outside the sources, so greensFunction0 is whatever
the bootstrap produced), copy it into greensFunction, set the stage tag with
its callback point, and enter the main loop. -/
noncomputable def flexRun (F : List Complex → List Complex) (s : FLEXState) : FLEXState :=
  let s0 := { s with
    greensFunction := s.greensFunction0
    stage := FLEXStage.GreensFunctionCalculated
    stageLog := s.stageLog ++ [FLEXStage.GreensFunctionCalculated] }
  flexRunLoop F s0.maxIterations s0

/-- The fields of the FLEX state that the constructor (FLEX.cpp lines
41-58) initializes: stage NotYetStarted, maxIterations 1, Max norm and
convergence parameter 0.  The tolerance is left uninitialized by the
constructor and is modelled as a parameter; the Green's function data start
empty. -/
noncomputable def flexConstruct (tolerance : ℝ) : FLEXState :=
  { greensFunction0 := []
    greensFunction := []
    oldGreensFunction := []
    selfEnergyStale := false
    norm := FLEXNorm.Max
    convergenceParameter := 0
    tolerance := tolerance
    maxIterations := 1
    stage := FLEXStage.NotYetStarted
    stageLog := []
    iterationsRun := 0 }

/-- An AbstractState as seen by StateTreeNode.cpp: spatial coordinates, an
extent and the hasFiniteExtent flag.  The tag stands for the identity of the
underlying state object (its container/index data play no role here). -/
structure AbstractState (K : Type) where
  tag : Nat
  coordinates : List K
  extent : K
  finiteExtent : Bool
deriving DecidableEq

/-- A StateTreeNode: child nodes, directly owned states, center, half size,
remaining maximum depth and the stored space-partition count (the
numSpacePartitions member, fixed at construction). -/
structure StateTreeNode (K : Type) where
  stateTreeNodes : List (StateTreeNode K)
  states : List (AbstractState K)
  center : List K
  halfSize : K
  maxDepth : Nat
  numSpacePartitions : Nat

variable {K : Type} [LinearOrderedField K]

/-- The explicit-center StateTreeNode constructors (initializer_list and
vector overloads): no children, no states, and numSpacePartitions =
pow(2, center.size()) computed from the center argument. -/
def mkNode (center : List K) (halfSize : K) (maxDepth : Nat) : StateTreeNode K :=
  { stateTreeNodes := []
    states := []
    center := center
    halfSize := halfSize
    maxDepth := maxDepth
    numSpacePartitions := 2 ^ center.length }

/-- The child-center computation of StateTreeNode::addRecursive: coordinate
c of child n is center[c] + ((n/(1 << c)) % 2 - 1/2) * halfSize. -/
def subCenter (t : StateTreeNode K) (n : Nat) : List K :=
  (List.range t.center.length).map
    (fun c => t.center.getD c 0 + (((n / 2 ^ c) % 2 : Nat) - (1 : K) / 2) * t.halfSize)

/-- The lazy child creation of StateTreeNode::addRecursive: one node per
space partition, each with half the half size and one less allowed depth. -/
def mkChildren (t : StateTreeNode K) : List (StateTreeNode K) :=
  (List.range t.numSpacePartitions).map
    (fun n => mkNode (subCenter t n) (t.halfSize / 2) (t.maxDepth - 1))

/-- The state's coordinates relative to the center of the current space
partition. -/
def relativeCoordinates (t : StateTreeNode K) (s : AbstractState K) : List K :=
  (List.range t.center.length).map (fun n => s.coordinates.getD n 0 - t.center.getD n 0)

/-- The largest absolute relative coordinate (running maximum starting from
0, as in the source). -/
def largestRelativeCoordinate (t : StateTreeNode K) (s : AbstractState K) : K :=
  (relativeCoordinates t s).foldl (fun acc x => if acc < |x| then |x| else acc) 0

/-- The child loop of StateTreeNode::addRecursive: try to add the state to
each child in order; the first child that accepts it is replaced by its
updated version and the loop stops. -/
def tryAddToEach (f : StateTreeNode K → Option (StateTreeNode K)) :
    List (StateTreeNode K) → Option (List (StateTreeNode K))
  | [] => none
  | c :: cs =>
    match f c with
    | some c' => some (c' :: cs)
    | none => (tryAddToEach f cs).map (fun cs' => c :: cs')

/-- StateTreeNode::addRecursive: a non-local state is stored at the current
node; a finite-extent state whose largest relative coordinate plus extent
exceeds the half size is rejected (false); at maxDepth 0 it is stored here;
otherwise children are created when absent and the state is pushed to the
first child that can contain it, falling back to the current node.  The fuel
argument bounds the recursion depth; in the source the depth is bounded by
the node's maxDepth, since every child carries maxDepth-1, and add below
supplies maxDepth+1 fuel, which is exact for constructor-built trees.
Whether the call succeeds (some/none) depends only on the top-level
containment test, never on the fuel, as long as one unit is available. -/
def addRecursiveF : Nat → StateTreeNode K → AbstractState K → Option (StateTreeNode K)
  | 0, _, _ => none
  | fuel + 1, t, s =>
    if s.finiteExtent = false then some { t with states := t.states ++ [s] }
    else if largestRelativeCoordinate t s + s.extent > t.halfSize then none
    else if t.maxDepth = 0 then some { t with states := t.states ++ [s] }
    else
      match tryAddToEach (fun c => addRecursiveF fuel c s)
          (if t.stateTreeNodes.isEmpty then mkChildren t else t.stateTreeNodes) with
      | some children => some { t with stateTreeNodes := children }
      | none =>
        some { t with
          stateTreeNodes := if t.stateTreeNodes.isEmpty then mkChildren t else t.stateTreeNodes
          states := t.states ++ [s] }

/-- Errors of the StateTreeNode operations: the TBTKAssert dimension checks,
the TBTKExit of add, and the out_of_range exceptions of std::vector::at
reachable in the StateSet constructor; emptyStateSet is the out_of_range of
states.at(0) on an empty set. -/
inductive StateTreeError where
  | emptyStateSet : StateTreeError
  | differentDimensions : StateTreeError
  | coordinateOutOfRange : StateTreeError
  | incompatibleDimensions : StateTreeError
  | unableToAddState : StateTreeError
deriving DecidableEq

/-- StateTreeNode::add: assert that the state's coordinate dimension equals
the node's, then run addRecursive; TBTKExit (unableToAddState) when the
state cannot be added. -/
def StateTreeNode.add (t : StateTreeNode K) (s : AbstractState K) :
    Except StateTreeError (StateTreeNode K) :=
  if s.coordinates.length = t.center.length then
    match addRecursiveF (t.maxDepth + 1) t s with
    | some t' => Except.ok t'
    | none => Except.error StateTreeError.unableToAddState
  else Except.error StateTreeError.incompatibleDimensions

/-- The dimension-compatibility loop of the StateSet constructor
(StateTreeNode.cpp lines 67-74).  The TBTKAssert condition is the
assignment numCoordinates = states.at(n)->getCoordinates().size(), so the
assertion fails exactly when a state has zero coordinates, and
numCoordinates ends up as the coordinate count of the last state. -/
def dimensionAssertLoop (numCoordinates : Nat) :
    List (AbstractState K) → Except StateTreeError Nat
  | [] => Except.ok numCoordinates
  | s :: rest =>
    if s.coordinates.length = 0 then Except.error StateTreeError.differentDimensions
    else dimensionAssertLoop s.coordinates.length rest

/-- The min/max update loop of the StateSet constructor (lines 94-104):
non-local states are skipped; accessing a coordinate past a state's
dimension throws out_of_range. -/
def minMaxUpdateLoop (numCoordinates : Nat) :
    List (AbstractState K) → List K × List K → Except StateTreeError (List K × List K)
  | [], mm => Except.ok mm
  | s :: rest, (mins, maxs) =>
    if s.finiteExtent = false then minMaxUpdateLoop numCoordinates rest (mins, maxs)
    else if s.coordinates.length < numCoordinates then
      Except.error StateTreeError.coordinateOutOfRange
    else
      minMaxUpdateLoop numCoordinates rest
        ((List.range numCoordinates).map (fun c =>
          if mins.getD c 0 > s.coordinates.getD c 0 - s.extent then
            s.coordinates.getD c 0 - s.extent
          else mins.getD c 0),
         (List.range numCoordinates).map (fun c =>
          if maxs.getD c 0 < s.coordinates.getD c 0 + s.extent then
            s.coordinates.getD c 0 + s.extent
          else maxs.getD c 0))

/-- The add loop at the end of the StateSet constructor (lines 115-116). -/
def addAllStates : StateTreeNode K → List (AbstractState K) →
    Except StateTreeError (StateTreeNode K)
  | t, [] => Except.ok t
  | t, s :: rest =>
    match t.add s with
    | Except.ok t' => addAllStates t' rest
    | Except.error e => Except.error e

/-- The bounding-box computation of the StateSet constructor (lines 76-104):
the first finite-extent state seeds the min/max vectors (its coordinate c
may be out of range when its dimension is below numCoordinates), the update
loop then continues from that state on; when no state has finite extent the
box degenerates to zeros of the first state's dimension. -/
def stateTreeBoundingBox (states : List (AbstractState K)) (first : AbstractState K)
    (numCoordinates : Nat) : Except StateTreeError (List K × List K) :=
  match states.findIdx? (fun s => s.finiteExtent) with
  | some n0 =>
    if (states.getD n0 first).coordinates.length < numCoordinates then
      Except.error StateTreeError.coordinateOutOfRange
    else
      minMaxUpdateLoop numCoordinates (states.drop n0)
        ((List.range numCoordinates).map
          (fun c => (states.getD n0 first).coordinates.getD c 0 - (states.getD n0 first).extent),
         (List.range numCoordinates).map
          (fun c => (states.getD n0 first).coordinates.getD c 0 + (states.getD n0 first).extent))
  | none =>
    Except.ok
      (List.replicate first.coordinates.length (0 : K),
       List.replicate first.coordinates.length (0 : K))

/-- The center derived from the bounding box (lines 106-111): coordinate n
is the midpoint of min and max at n; accessing n past the min/max vectors
throws out_of_range (checked by the caller). -/
def stateTreeCenter (numCoordinates : Nat) (mm : List K × List K) : List K :=
  (List.range numCoordinates).map (fun n => (mm.1.getD n 0 + mm.2.getD n 0) / 2)

/-- The half size derived from the bounding box: the largest half extent of
the box over the coordinates (running maximum from 0). -/
def stateTreeHalfSize (numCoordinates : Nat) (mm : List K × List K) : K :=
  (List.range numCoordinates).foldl
    (fun h n =>
      if h < (mm.2.getD n 0 - mm.1.getD n 0) / 2 then (mm.2.getD n 0 - mm.1.getD n 0) / 2
      else h) 0

/-- The tail of the StateSet constructor: the out_of_range check for the
center loop, the root node assembly and the insertion of every state.  The
root's numSpacePartitions member is initialized as pow(2, center.size()) in
the member-initializer list, where the member vector center is still empty
(the constructor body fills it only later), so the stored value is
2^0 = 1. -/
def stateTreeAssemble (states : List (AbstractState K)) (maxDepth : Nat)
    (numCoordinates : Nat) (mm : List K × List K) :
    Except StateTreeError (StateTreeNode K) :=
  if mm.1.length < numCoordinates then Except.error StateTreeError.coordinateOutOfRange
  else
    addAllStates
      { stateTreeNodes := []
        states := []
        center := stateTreeCenter numCoordinates mm
        halfSize := stateTreeHalfSize numCoordinates mm
        maxDepth := maxDepth
        numSpacePartitions := 1 } states

/-- The StateSet-based StateTreeNode constructor: the dimension assert loop,
the bounding-box computation over the finite-extent states, the
center/half-size derivation and the insertion of every state. -/
def stateTreeFromStateSet (states : List (AbstractState K)) (maxDepth : Nat) :
    Except StateTreeError (StateTreeNode K) :=
  match states.head? with
  | none => Except.error StateTreeError.emptyStateSet
  | some first =>
    match dimensionAssertLoop first.coordinates.length (states.drop 1) with
    | Except.error e => Except.error e
    | Except.ok numCoordinates =>
      match stateTreeBoundingBox states first numCoordinates with
      | Except.error e => Except.error e
      | Except.ok mm => stateTreeAssemble states maxDepth numCoordinates mm

/-- The distance from the query coordinates to the center of the current
space partition (getOverlappingStatesRecursive, first loop). -/
noncomputable def distToCenter (t : StateTreeNode ℝ) (coordinates : List ℝ) : ℝ :=
  Real.sqrt (((List.range t.center.length).map
    (fun n => (coordinates.getD n 0 - t.center.getD n 0) ^ 2)).sum)

/-- The distance from the query coordinates to a stored state's coordinates
(getOverlappingStatesRecursive, second loop; the sum runs over the query
coordinate dimension). -/
noncomputable def distToState (coordinates : List ℝ) (s : AbstractState ℝ) : ℝ :=
  Real.sqrt (((List.range coordinates.length).map
    (fun n => (coordinates.getD n 0 - s.coordinates.getD n 0) ^ 2)).sum)

/-- StateTreeNode::getOverlappingStatesRecursive: prune the subtree when the
query center is farther from the node center than the node's half diagonal
sqrt(dimension * halfSize^2) plus the query extent; otherwise collect the
node's own states whose extent sphere strictly overlaps the query sphere and
recurse into every child. -/
noncomputable def getOverlappingStatesRecursive (t : StateTreeNode ℝ)
    (coordinates : List ℝ) (extent : ℝ) : List (AbstractState ℝ) :=
  if distToCenter t coordinates > Real.sqrt (t.center.length * t.halfSize ^ 2) + extent then []
  else
    t.states.filter (fun s => decide (distToState coordinates s < extent + s.extent)) ++
      (t.stateTreeNodes.attach.map
        (fun c => getOverlappingStatesRecursive c.1 coordinates extent)).flatten
termination_by sizeOf t
decreasing_by
  have h := List.sizeOf_lt_of_mem c.2
  cases t
  simp_all
  omega

/-- StateTreeNode::getOverlappingStates: assert the query dimension matches
the tree's, then run the recursive query. -/
noncomputable def getOverlappingStates (t : StateTreeNode ℝ) (coordinates : List ℝ)
    (extent : ℝ) : Except StateTreeError (List (AbstractState ℝ)) :=
  if coordinates.length = t.center.length then
    Except.ok (getOverlappingStatesRecursive t coordinates extent)
  else Except.error StateTreeError.incompatibleDimensions

/-- Decidable equality for Except results, used to evaluate the embedded
operations at concrete inputs. -/
instance exceptDecEq {e a : Type} [DecidableEq e] [DecidableEq a] :
    DecidableEq (Except e a) := fun x y =>
  match x, y with
  | Except.ok a1, Except.ok a2 =>
    if h : a1 = a2 then isTrue (by rw [h]) else isFalse (by intro hc; cases hc; exact h rfl)
  | Except.ok _, Except.error _ => isFalse (fun hc => Except.noConfusion hc)
  | Except.error _, Except.ok _ => isFalse (fun hc => Except.noConfusion hc)
  | Except.error e1, Except.error e2 =>
    if h : e1 = e2 then isTrue (by rw [h]) else isFalse (by intro hc; cases hc; exact h rfl)

/-- A trivial Green's function stand-in used for concrete evaluations. -/
def gZero : List Int → List Int → Nat → Complex := fun _ _ _ => 0

/-- A one-iteration pipeline stand-in that zeroes the Green's function. -/
def flexFZero : List Complex → List Complex := fun l => l.map (fun _ => 0)

/-- A concrete post-constructor FLEX state: tolerance 1/2, bare Green's
function data [1] and an iteration cap of 5. -/
noncomputable def flexStart : FLEXState :=
  { flexConstruct (1 / 2) with greensFunction0 := [1], maxIterations := 5 }

/-- A concrete finite-extent 1D state for the StateSet constructor. -/
def stC2 : AbstractState ℚ := { tag := 0, coordinates := [0], extent := 1, finiteExtent := true }

/-- The tree built by the StateSet constructor from stC2 with maxDepth 2. -/
def c2Tree : StateTreeNode ℚ :=
  match stateTreeFromStateSet [stC2] 2 with
  | Except.ok t => t
  | Except.error _ => mkNode [] 0 0

/-- A concrete 2D non-local state. -/
def c10A : AbstractState ℚ :=
  { tag := 0, coordinates := [0, 0], extent := 0, finiteExtent := false }

/-- A concrete 1D non-local state. -/
def c10B : AbstractState ℚ :=
  { tag := 1, coordinates := [0], extent := 0, finiteExtent := false }

/-- A concrete 2D root node. -/
def c8Tree : StateTreeNode ℚ := mkNode [0, 0] 1 1

/-- A concrete finite-extent state that does not fit c8Tree. -/
def c8State : AbstractState ℚ :=
  { tag := 0, coordinates := [3, 0], extent := 0, finiteExtent := true }

/-- A concrete 1D root node over the reals (depth 0). -/
noncomputable def c3Tree : StateTreeNode ℝ := mkNode [0] 1 0

/-- A finite state with extent zero at the center of c3Tree. -/
noncomputable def c3Zero : AbstractState ℝ :=
  { tag := 0, coordinates := [0], extent := 0, finiteExtent := true }

/-- c3Tree after inserting c3Zero. -/
noncomputable def c3TreeZ : StateTreeNode ℝ := { c3Tree with states := [c3Zero] }

/-- A finite state with positive extent at the center of c3Tree. -/
noncomputable def c3Pos : AbstractState ℝ :=
  { tag := 0, coordinates := [0], extent := 1 / 2, finiteExtent := true }

/-- c3Tree after inserting c3Pos. -/
noncomputable def c3TreeP : StateTreeNode ℝ := { c3Tree with states := [c3Pos] }

/-! Helper lemmas. -/

theorem getD_zipWith (f : Int → Int → Int) (l1 l2 : List Int) (n : Nat)
    (h1 : n < l1.length) (h2 : n < l2.length) :
    (List.zipWith f l1 l2).getD n 0 = f (l1.getD n 0) (l2.getD n 0) := by
  induction l1 generalizing l2 n with
  | nil => simp at h1
  | cons a l1 ih =>
    cases l2 with
    | nil => simp at h2
    | cons b l2 =>
      cases n with
      | zero => simp [List.getD]
      | succ n =>
        simp only [List.zipWith_cons_cons, List.getD_cons_succ]
        exact ih l2 n (by simpa using h1) (by simpa using h2)

theorem zip_sel_prod (pattern ranges : List Int) (h : pattern.length = ranges.length) :
    (List.zipWith (fun p r => if p < IDX_SUM_ALL then r else 1) pattern ranges).prod =
      ∏ n ∈ Finset.range pattern.length,
        (if pattern.getD n 0 < IDX_SUM_ALL then ranges.getD n 0 else 1) := by
  induction pattern generalizing ranges with
  | nil => simp
  | cons a pattern ih =>
    cases ranges with
    | nil => simp at h
    | cons b ranges =>
      rw [List.zipWith_cons_cons, List.prod_cons, ih ranges (by simpa using h),
        List.length_cons, Finset.prod_range_succ']
      simp only [List.getD_cons_succ, List.getD_cons_zero]
      rw [mul_comm]

theorem ldosArraySize_eq_prod (pattern ranges : List Int)
    (h : pattern.length = ranges.length) :
    ldosArraySize pattern ranges =
      ∏ n ∈ Finset.range pattern.length,
        (if pattern.getD n 0 < IDX_SUM_ALL then ranges.getD n 0 else 1) := by
  rw [ldosArraySize, ← List.prod_eq_foldl]
  exact zip_sel_prod pattern ranges h

/-- Claim C9: constructing the Chebyshev property extractor with
useLookupTable = false while accelerator-based Green's-function
reconstruction is requested is a fatal configuration error (exit(1)), for
every choice of the remaining configuration parameters. -/
theorem claim_C9_gpu_requires_lookup_table (numCoefficients energyResolution : Int)
    (useGPUToCalculateCoefficients : Bool) :
    chebyshevConstruct numCoefficients energyResolution useGPUToCalculateCoefficients
      true false = ChebyshevConstructOutcome.fatal := rfl

/-- Claim C7: setU, setUp, setJ and setJp clear the RPA, RPA-charge and
RPA-spin susceptibility cache trees and mark the charge/spin interaction
amplitudes for regeneration while leaving the bare susceptibility cache tree
unchanged; setSusceptibilityEnergies clears the bare susceptibility cache
tree in addition to the three RPA cache trees. -/
theorem claim_C7_cache_invalidation (c : SusceptibilityCalculator) (v : Complex)
    (es : List Complex) :
    ((c.setU v).susceptibilityTree = c.susceptibilityTree ∧
      (c.setU v).rpaSusceptibilityTree = ([] : IndexedDataTree) ∧
      (c.setU v).rpaChargeSusceptibilityTree = ([] : IndexedDataTree) ∧
      (c.setU v).rpaSpinSusceptibilityTree = ([] : IndexedDataTree) ∧
      (c.setU v).interactionAmplitudesAreGenerated = false) ∧
    ((c.setUp v).susceptibilityTree = c.susceptibilityTree ∧
      (c.setUp v).rpaSusceptibilityTree = ([] : IndexedDataTree) ∧
      (c.setUp v).rpaChargeSusceptibilityTree = ([] : IndexedDataTree) ∧
      (c.setUp v).rpaSpinSusceptibilityTree = ([] : IndexedDataTree) ∧
      (c.setUp v).interactionAmplitudesAreGenerated = false) ∧
    ((c.setJ v).susceptibilityTree = c.susceptibilityTree ∧
      (c.setJ v).rpaSusceptibilityTree = ([] : IndexedDataTree) ∧
      (c.setJ v).rpaChargeSusceptibilityTree = ([] : IndexedDataTree) ∧
      (c.setJ v).rpaSpinSusceptibilityTree = ([] : IndexedDataTree) ∧
      (c.setJ v).interactionAmplitudesAreGenerated = false) ∧
    ((c.setJp v).susceptibilityTree = c.susceptibilityTree ∧
      (c.setJp v).rpaSusceptibilityTree = ([] : IndexedDataTree) ∧
      (c.setJp v).rpaChargeSusceptibilityTree = ([] : IndexedDataTree) ∧
      (c.setJp v).rpaSpinSusceptibilityTree = ([] : IndexedDataTree) ∧
      (c.setJp v).interactionAmplitudesAreGenerated = false) ∧
    ((c.setSusceptibilityEnergies es).susceptibilityTree = ([] : IndexedDataTree) ∧
      (c.setSusceptibilityEnergies es).rpaSusceptibilityTree = ([] : IndexedDataTree) ∧
      (c.setSusceptibilityEnergies es).rpaChargeSusceptibilityTree = ([] : IndexedDataTree) ∧
      (c.setSusceptibilityEnergies es).rpaSpinSusceptibilityTree = ([] : IndexedDataTree) ∧
      (c.setSusceptibilityEnergies es).interactionAmplitudesAreGenerated =
        c.interactionAmplitudesAreGenerated) :=
  ⟨⟨rfl, rfl, rfl, rfl, rfl⟩, ⟨rfl, rfl, rfl, rfl, rfl⟩, ⟨rfl, rfl, rfl, rfl, rfl⟩,
    ⟨rfl, rfl, rfl, rfl, rfl⟩, ⟨rfl, rfl, rfl, rfl, rfl⟩⟩

/-- Claim C4 counterexample: calling calculateSP_LDOS with the concrete
pattern {0}, which contains no IDX_SPIN subindex, reports the error and
returns NULL; the outcome is not the process-terminating fatal outcome the
claim asserts. -/
theorem claim_C4_counterexample :
    calculateSP_LDOS gZero 1 [0] [1] = SPOutcome.nullResult ∧
      calculateSP_LDOS gZero 1 [0] [1] ≠ SPOutcome.fatal := by
  refine ⟨rfl, ?_⟩
  intro h
  rw [show calculateSP_LDOS gZero 1 [0] [1] = SPOutcome.nullResult from rfl] at h
  exact SPOutcome.noConfusion h

/-- Claim C4 (amended): when calculateSP_LDOS is called with a pattern
containing no IDX_SPIN subindex, the missing spin axis is reported with an
error message and the call returns NULL, producing no result; the process is
not terminated. -/
theorem claim_C4_no_spin_axis (G : List Int → List Int → Nat → Complex)
    (energyResolution : Nat) (pattern ranges : List Int)
    (h : ∀ x ∈ pattern, x ≠ IDX_SPIN) :
    calculateSP_LDOS G energyResolution pattern ranges = SPOutcome.nullResult ∧
      calculateSP_LDOS G energyResolution pattern ranges ≠ SPOutcome.fatal := by
  have hf : pattern.findIdx? (fun x => x == IDX_SPIN) = none := by
    rw [List.findIdx?_eq_none_iff]
    intro x hx
    simpa using h x hx
  rw [calculateSP_LDOS, hf]
  exact ⟨rfl, fun hc => SPOutcome.noConfusion hc⟩

/-- Witness for claim C4's amended theorem at the concrete pattern {0, 1}. -/
theorem claim_C4_witness :
    calculateSP_LDOS gZero 2 [0, 1] [1, 1] = SPOutcome.nullResult ∧
      calculateSP_LDOS gZero 2 [0, 1] [1, 1] ≠ SPOutcome.fatal :=
  claim_C4_no_spin_axis gZero 2 [0, 1] [1, 1] (by decide)

/-- Claim C5: in calculateLDOS, each ranges entry whose pattern entry is a
concrete non-negative coordinate is forced to 1; the allocated buffer size
is the product of the (forced) ranges entries over all dimensions whose
pattern entry is not IDX_SUM_ALL; and every element of the buffer handed to
the iteration engine is zero. -/
theorem claim_C5_ldos_allocation (G : List Int → List Int → Nat → Complex)
    (energyResolution : Nat) (pattern ranges : List Int)
    (h : pattern.length = ranges.length) :
    (∀ n < pattern.length, 0 ≤ pattern.getD n 0 →
      (calculateLDOS G energyResolution pattern ranges).forcedRanges.getD n 0 = 1) ∧
    (calculateLDOS G energyResolution pattern ranges).arraySize =
      (∏ n ∈ Finset.range pattern.length,
        (if pattern.getD n 0 = IDX_SUM_ALL then 1
         else (calculateLDOS G energyResolution pattern ranges).forcedRanges.getD n 0)) ∧
    (calculateLDOS G energyResolution pattern ranges).initialBuffer.length =
      (calculateLDOS G energyResolution pattern ranges).arraySize.toNat ∧
    (∀ x ∈ (calculateLDOS G energyResolution pattern ranges).initialBuffer, x = 0) := by
  have hget : ∀ n < pattern.length,
      (calculateLDOS G energyResolution pattern ranges).forcedRanges.getD n 0 =
        (if 0 ≤ pattern.getD n 0 then 1 else ranges.getD n 0) := by
    intro n hn
    show (forceRanges pattern ranges).getD n 0 = _
    rw [forceRanges, getD_zipWith _ _ _ _ hn (h ▸ hn)]
  refine ⟨?_, ?_, ?_, ?_⟩
  · intro n hn hp
    rw [hget n hn, if_pos hp]
  · show ldosArraySize pattern (forceRanges pattern ranges) = _
    rw [ldosArraySize_eq_prod pattern (forceRanges pattern ranges)
      (by rw [forceRanges, List.length_zipWith, h, min_self])]
    refine Finset.prod_congr rfl ?_
    intro n hn
    rw [Finset.mem_range] at hn
    have hg := hget n hn
    have hsame : (forceRanges pattern ranges).getD n 0 =
        (calculateLDOS G energyResolution pattern ranges).forcedRanges.getD n 0 := rfl
    rw [hsame]
    by_cases hp : 0 ≤ pattern.getD n 0
    · rw [if_neg (by rw [IDX_SUM_ALL]; omega), if_neg (by rw [IDX_SUM_ALL]; omega), hg,
        if_pos hp]
    · by_cases hs : pattern.getD n 0 = IDX_SUM_ALL
      · rw [if_neg (by rw [IDX_SUM_ALL] at hs ⊢; omega), if_pos hs]
      · rw [if_pos (by rw [IDX_SUM_ALL] at hs ⊢; omega), if_neg hs]
  · exact List.length_replicate _ _
  · intro x hx
    exact List.eq_of_mem_replicate hx

/-- Witness for claim C5 at the concrete pattern {2, IDX_ALL, IDX_SUM_ALL}
with ranges {5, 3, 4}. -/
theorem claim_C5_witness :
    (∀ n < ([2, IDX_ALL, IDX_SUM_ALL] : List Int).length,
      0 ≤ ([2, IDX_ALL, IDX_SUM_ALL] : List Int).getD n 0 →
      (calculateLDOS gZero 1 [2, IDX_ALL, IDX_SUM_ALL] [5, 3, 4]).forcedRanges.getD n 0 = 1) ∧
    (calculateLDOS gZero 1 [2, IDX_ALL, IDX_SUM_ALL] [5, 3, 4]).arraySize =
      (∏ n ∈ Finset.range ([2, IDX_ALL, IDX_SUM_ALL] : List Int).length,
        (if ([2, IDX_ALL, IDX_SUM_ALL] : List Int).getD n 0 = IDX_SUM_ALL then 1
         else (calculateLDOS gZero 1 [2, IDX_ALL, IDX_SUM_ALL] [5, 3, 4]).forcedRanges.getD n 0)) ∧
    (calculateLDOS gZero 1 [2, IDX_ALL, IDX_SUM_ALL] [5, 3, 4]).initialBuffer.length =
      (calculateLDOS gZero 1 [2, IDX_ALL, IDX_SUM_ALL] [5, 3, 4]).arraySize.toNat ∧
    (∀ x ∈ (calculateLDOS gZero 1 [2, IDX_ALL, IDX_SUM_ALL] [5, 3, 4]).initialBuffer, x = 0) :=
  claim_C5_ldos_allocation gZero 1 [2, IDX_ALL, IDX_SUM_ALL] [5, 3, 4] (by decide)

/-- Claim C1: evaluation of FLEX::run at a concrete failing input: with
tolerance 1/2, maxIterations 5, the Max norm, bare Green's function data
{1} and an iteration pipeline that changes the Green's function to {0}, the
run executes exactly one main-loop iteration and exits with the stored
convergence parameter still at its constructor value 0, even though the
Max-norm convergence parameter between the previous and current Green's
function is 1, which is not below the tolerance: run never invokes
calculateConvergenceParameter, so the spec's early-exit criterion is
evaluated against a stale value. -/
theorem claim_C1_run_skips_convergence_update :
    (flexRun flexFZero flexStart).iterationsRun = 1 ∧
    (flexRun flexFZero flexStart).convergenceParameter = 0 ∧
    (flexRun flexFZero flexStart).oldGreensFunction = [1] ∧
    (flexRun flexFZero flexStart).greensFunction = [0] ∧
    calculateConvergenceParameter FLEXNorm.Max
      (flexRun flexFZero flexStart).oldGreensFunction
      (flexRun flexFZero flexStart).greensFunction = 1 ∧
    ¬ (1 : ℝ) < flexStart.tolerance := by
  have hcond : ((0 : ℝ) < 1 / 2) = True := by norm_num
  have hrun : flexRun flexFZero flexStart =
      flexIteration flexFZero
        { flexStart with
          greensFunction := flexStart.greensFunction0
          stage := FLEXStage.GreensFunctionCalculated
          stageLog := flexStart.stageLog ++ [FLEXStage.GreensFunctionCalculated] } := by
    rw [flexRun]
    show flexRunLoop flexFZero 5 _ = _
    rw [flexRunLoop]
    rw [if_pos]
    show (0 : ℝ) < 1 / 2
    norm_num
  rw [hrun]
  refine ⟨rfl, rfl, rfl, by simp [flexIteration, flexStart, flexConstruct, flexFZero], ?_, ?_⟩
  · show calculateConvergenceParameter FLEXNorm.Max [1] (flexFZero [1]) = 1
    rw [show flexFZero [1] = [0] from rfl]
    rw [calculateConvergenceParameter]
    show (flexMaxLoop [((1 : Complex), (0 : Complex))] (0, 0)).2 /
      (flexMaxLoop [((1 : Complex), (0 : Complex))] (0, 0)).1 = 1
    rw [flexMaxLoop, flexMaxLoop]
    norm_num
  · show ¬ (1 : ℝ) < 1 / 2
    norm_num

/-! Spatial partition tree lemmas. -/

variable {K : Type} [LinearOrderedField K]

theorem tryAddToEach_length (f : StateTreeNode K → Option (StateTreeNode K))
    (cs cs' : List (StateTreeNode K)) (h : tryAddToEach f cs = some cs') :
    cs'.length = cs.length := by
  induction cs generalizing cs' with
  | nil => simp [tryAddToEach] at h
  | cons c cs ih =>
    rw [tryAddToEach] at h
    cases hf : f c with
    | some c' =>
      rw [hf] at h
      cases h
      simp
    | none =>
      rw [hf] at h
      cases ht : tryAddToEach f cs with
      | none => rw [ht] at h; simp at h
      | some cs0 =>
        rw [ht] at h
        cases h
        simp [ih cs0 ht]

theorem tryAddToEach_structure (f : StateTreeNode K → Option (StateTreeNode K))
    (cs cs' : List (StateTreeNode K)) (h : tryAddToEach f cs = some cs') :
    ∃ pre c c' post, cs = pre ++ c :: post ∧ f c = some c' ∧ cs' = pre ++ c' :: post := by
  induction cs generalizing cs' with
  | nil => simp [tryAddToEach] at h
  | cons c cs ih =>
    rw [tryAddToEach] at h
    cases hf : f c with
    | some c0 =>
      rw [hf] at h
      cases h
      exact ⟨[], c, c0, cs, rfl, hf, rfl⟩
    | none =>
      rw [hf] at h
      cases ht : tryAddToEach f cs with
      | none => rw [ht] at h; simp at h
      | some cs0 =>
        rw [ht] at h
        cases h
        obtain ⟨pre, d, d', post, h1, h2, h3⟩ := ih cs0 ht
        exact ⟨c :: pre, d, d', post, by simp [h1], h2, by simp [h3]⟩

theorem mkChildren_length (t : StateTreeNode K) :
    (mkChildren t).length = t.numSpacePartitions := by
  rw [mkChildren]
  simp

theorem mkChildren_partitions (t : StateTreeNode K) :
    ∀ c ∈ mkChildren t, c.numSpacePartitions = 2 ^ t.center.length := by
  intro c hc
  rw [mkChildren] at hc
  obtain ⟨n, _, rfl⟩ := List.mem_map.mp hc
  rw [mkNode]
  rw [show (subCenter t n).length = t.center.length by rw [subCenter]; simp]

theorem addRecursiveF_frame (fuel : Nat) (t : StateTreeNode K) (s : AbstractState K)
    (t' : StateTreeNode K) (h : addRecursiveF fuel t s = some t') :
    t'.center = t.center ∧ t'.halfSize = t.halfSize ∧ t'.maxDepth = t.maxDepth ∧
      t'.numSpacePartitions = t.numSpacePartitions := by
  cases fuel with
  | zero => simp [addRecursiveF] at h
  | succ fuel =>
    rw [addRecursiveF] at h
    by_cases h1 : s.finiteExtent = false
    · rw [if_pos h1] at h
      cases h
      exact ⟨rfl, rfl, rfl, rfl⟩
    · rw [if_neg h1] at h
      by_cases h2 : largestRelativeCoordinate t s + s.extent > t.halfSize
      · rw [if_pos h2] at h
        simp at h
      · rw [if_neg h2] at h
        by_cases h3 : t.maxDepth = 0
        · rw [if_pos h3] at h
          cases h
          exact ⟨rfl, rfl, rfl, rfl⟩
        · rw [if_neg h3] at h
          cases htry : tryAddToEach (fun c => addRecursiveF fuel c s)
              (if t.stateTreeNodes.isEmpty then mkChildren t else t.stateTreeNodes) with
          | some children => rw [htry] at h; cases h; exact ⟨rfl, rfl, rfl, rfl⟩
          | none => rw [htry] at h; cases h; exact ⟨rfl, rfl, rfl, rfl⟩

theorem addRecursiveF_children (fuel : Nat) (t : StateTreeNode K) (s : AbstractState K)
    (t' : StateTreeNode K) (h : addRecursiveF fuel t s = some t') :
    t'.stateTreeNodes.length = t.stateTreeNodes.length ∨
      (t.stateTreeNodes = [] ∧ t'.stateTreeNodes.length = t.numSpacePartitions) := by
  cases fuel with
  | zero => simp [addRecursiveF] at h
  | succ fuel =>
    rw [addRecursiveF] at h
    by_cases h1 : s.finiteExtent = false
    · rw [if_pos h1] at h
      cases h
      exact Or.inl rfl
    · rw [if_neg h1] at h
      by_cases h2 : largestRelativeCoordinate t s + s.extent > t.halfSize
      · rw [if_pos h2] at h
        simp at h
      · rw [if_neg h2] at h
        by_cases h3 : t.maxDepth = 0
        · rw [if_pos h3] at h
          cases h
          exact Or.inl rfl
        · rw [if_neg h3] at h
          by_cases h4 : t.stateTreeNodes.isEmpty
          · rw [if_pos h4] at h
            refine Or.inr ⟨List.isEmpty_iff.mp h4, ?_⟩
            cases htry : tryAddToEach (fun c => addRecursiveF fuel c s) (mkChildren t) with
            | some children =>
              rw [htry] at h
              cases h
              show children.length = _
              rw [tryAddToEach_length _ _ _ htry]
              exact mkChildren_length t
            | none =>
              rw [htry] at h
              cases h
              exact mkChildren_length t
          · rw [if_neg h4] at h
            refine Or.inl ?_
            cases htry : tryAddToEach (fun c => addRecursiveF fuel c s) t.stateTreeNodes with
            | some children =>
              rw [htry] at h
              cases h
              exact tryAddToEach_length _ _ _ htry
            | none =>
              rw [htry] at h
              cases h
              rfl

theorem addRecursiveF_none_iff (fuel : Nat) (t : StateTreeNode K) (s : AbstractState K)
    (hf : 1 ≤ fuel) :
    addRecursiveF fuel t s = none ↔
      s.finiteExtent = true ∧ t.halfSize < largestRelativeCoordinate t s + s.extent := by
  cases fuel with
  | zero => simp at hf
  | succ fuel =>
    rw [addRecursiveF]
    by_cases h1 : s.finiteExtent = false
    · rw [if_pos h1]
      simp [h1]
    · rw [if_neg h1]
      have h1' : s.finiteExtent = true := by
        cases hb : s.finiteExtent
        · exact absurd hb h1
        · rfl
      by_cases h2 : largestRelativeCoordinate t s + s.extent > t.halfSize
      · rw [if_pos h2]
        simp [h1', h2]
      · rw [if_neg h2]
        by_cases h3 : t.maxDepth = 0
        · rw [if_pos h3]
          simp [h2]
        · rw [if_neg h3]
          cases htry : tryAddToEach (fun c => addRecursiveF fuel c s)
              (if t.stateTreeNodes.isEmpty then mkChildren t else t.stateTreeNodes) with
          | some children => simp [htry, h2]
          | none => simp [htry, h2]

theorem foldl_absmax_gt (l : List K) (e hs : K) :
    ∀ a : K, hs < l.foldl (fun acc x => if acc < |x| then |x| else acc) a + e ↔
      (hs < a + e ∨ ∃ x ∈ l, hs < |x| + e) := by
  induction l with
  | nil => simp
  | cons x l ih =>
    intro a
    rw [List.foldl_cons, ih]
    have hstep : (hs < (if a < |x| then |x| else a) + e) ↔ (hs < a + e ∨ hs < |x| + e) := by
      by_cases hc : a < |x|
      · rw [if_pos hc]
        constructor
        · exact fun hh => Or.inr hh
        · rintro (hh | hh)
          · exact lt_of_lt_of_le hh (by linarith)
          · exact hh
      · rw [if_neg hc]
        push_neg at hc
        constructor
        · exact fun hh => Or.inl hh
        · rintro (hh | hh)
          · exact hh
          · exact lt_of_lt_of_le hh (by linarith)
    rw [hstep]
    constructor
    · rintro ((hh | hh) | ⟨y, hy, hh⟩)
      · exact Or.inl hh
      · exact Or.inr ⟨x, List.mem_cons_self x l, hh⟩
      · exact Or.inr ⟨y, List.mem_cons_of_mem x hy, hh⟩
    · rintro (hh | ⟨y, hy, hh⟩)
      · exact Or.inl (Or.inl hh)
      · rcases List.mem_cons.mp hy with rfl | hy
        · exact Or.inl (Or.inr hh)
        · exact Or.inr ⟨y, hy, hh⟩

theorem largest_gt_iff (t : StateTreeNode K) (s : AbstractState K) :
    t.halfSize < largestRelativeCoordinate t s + s.extent ↔
      (t.halfSize < s.extent ∨
        ∃ n < t.center.length,
          t.halfSize < |s.coordinates.getD n 0 - t.center.getD n 0| + s.extent) := by
  rw [largestRelativeCoordinate, foldl_absmax_gt, zero_add]
  constructor
  · rintro (hh | ⟨x, hx, hh⟩)
    · exact Or.inl hh
    · rw [relativeCoordinates] at hx
      obtain ⟨n, hn, rfl⟩ := List.mem_map.mp hx
      exact Or.inr ⟨n, List.mem_range.mp hn, hh⟩
  · rintro (hh | ⟨n, hn, hh⟩)
    · exact Or.inl hh
    · refine Or.inr ⟨s.coordinates.getD n 0 - t.center.getD n 0, ?_, hh⟩
      rw [relativeCoordinates]
      exact List.mem_map.mpr ⟨n, List.mem_range.mpr hn, rfl⟩

/-- Claim C8: StateTreeNode::add of a state of matching dimension reports a
fatal error exactly when the state has finite extent and its extent sphere
is not fully contained in the root's bounding hypercube (some coordinate
deviation plus the extent exceeds the half size, or, degenerately, the
extent alone does); a non-local state is always accepted at the current
node; in the fatal case no tree results, so a too-large state is never
truncated or stored. -/
theorem claim_C8_add_fatal_iff (t : StateTreeNode K) (s : AbstractState K)
    (hdim : s.coordinates.length = t.center.length) :
    ((∃ e, t.add s = Except.error e) ↔
      s.finiteExtent = true ∧
        (t.halfSize < s.extent ∨
          ∃ n < t.center.length,
            t.halfSize < |s.coordinates.getD n 0 - t.center.getD n 0| + s.extent)) ∧
    (s.finiteExtent = false →
      t.add s = Except.ok { t with states := t.states ++ [s] }) := by
  constructor
  · rw [StateTreeNode.add, if_pos hdim, ← largest_gt_iff,
      ← addRecursiveF_none_iff (t.maxDepth + 1) t s (by omega)]
    cases hrec : addRecursiveF (t.maxDepth + 1) t s with
    | some t0 => simp
    | none => simp
  · intro hnl
    rw [StateTreeNode.add, if_pos hdim]
    rw [show addRecursiveF (t.maxDepth + 1) t s =
      some { t with states := t.states ++ [s] } by rw [addRecursiveF, if_pos hnl]]

/-- Witness for claim C8 at a concrete 2D tree and a state whose extent
sphere protrudes from the root box. -/
theorem claim_C8_witness :
    ((∃ e, c8Tree.add c8State = Except.error e) ↔
      c8State.finiteExtent = true ∧
        (c8Tree.halfSize < c8State.extent ∨
          ∃ n < c8Tree.center.length,
            c8Tree.halfSize <
              |c8State.coordinates.getD n 0 - c8Tree.center.getD n 0| + c8State.extent)) ∧
    (c8State.finiteExtent = false →
      c8Tree.add c8State = Except.ok { c8Tree with states := c8Tree.states ++ [c8State] }) :=
  claim_C8_add_fatal_iff c8Tree c8State (by decide)

theorem add_frame (t : StateTreeNode K) (s : AbstractState K) (t' : StateTreeNode K)
    (h : t.add s = Except.ok t') :
    t'.center = t.center ∧ t'.numSpacePartitions = t.numSpacePartitions := by
  rw [StateTreeNode.add] at h
  by_cases hdim : s.coordinates.length = t.center.length
  · rw [if_pos hdim] at h
    cases hrec : addRecursiveF (t.maxDepth + 1) t s with
    | some t0 =>
      rw [hrec] at h
      cases h
      obtain ⟨h1, _, _, h4⟩ := addRecursiveF_frame _ _ _ _ hrec
      exact ⟨h1, h4⟩
    | none => rw [hrec] at h; simp at h
  · rw [if_neg hdim] at h
    simp at h

theorem add_dims (t : StateTreeNode K) (s : AbstractState K) (t' : StateTreeNode K)
    (h : t.add s = Except.ok t') : s.coordinates.length = t.center.length := by
  rw [StateTreeNode.add] at h
  by_cases hdim : s.coordinates.length = t.center.length
  · exact hdim
  · rw [if_neg hdim] at h
    simp at h

theorem add_error_kinds (t : StateTreeNode K) (s : AbstractState K) (e : StateTreeError)
    (h : t.add s = Except.error e) :
    e = StateTreeError.incompatibleDimensions ∨ e = StateTreeError.unableToAddState := by
  rw [StateTreeNode.add] at h
  by_cases hdim : s.coordinates.length = t.center.length
  · rw [if_pos hdim] at h
    cases hrec : addRecursiveF (t.maxDepth + 1) t s with
    | some t0 => rw [hrec] at h; simp at h
    | none =>
      rw [hrec] at h
      cases h
      exact Or.inr rfl
  · rw [if_neg hdim] at h
    cases h
    exact Or.inl rfl

theorem addAllStates_frame (l : List (AbstractState K)) (t t' : StateTreeNode K)
    (h : addAllStates t l = Except.ok t') :
    t'.center = t.center ∧ t'.numSpacePartitions = t.numSpacePartitions := by
  induction l generalizing t with
  | nil =>
    rw [addAllStates] at h
    cases h
    exact ⟨rfl, rfl⟩
  | cons s l ih =>
    rw [addAllStates] at h
    cases hadd : t.add s with
    | ok t0 =>
      rw [hadd] at h
      obtain ⟨h1, h2⟩ := ih t0 h
      obtain ⟨h3, h4⟩ := add_frame t s t0 hadd
      exact ⟨h1.trans h3, h2.trans h4⟩
    | error e => rw [hadd] at h; simp at h

theorem addAllStates_dims (l : List (AbstractState K)) (t t' : StateTreeNode K)
    (h : addAllStates t l = Except.ok t') :
    ∀ s ∈ l, s.coordinates.length = t.center.length := by
  induction l generalizing t with
  | nil => simp
  | cons s l ih =>
    rw [addAllStates] at h
    cases hadd : t.add s with
    | ok t0 =>
      rw [hadd] at h
      intro s1 hs1
      rcases List.mem_cons.mp hs1 with rfl | hs1
      · exact add_dims t s1 t0 hadd
      · rw [ih t0 h s1 hs1, (add_frame t s t0 hadd).1]
    | error e => rw [hadd] at h; simp at h

theorem addAllStates_error_kinds (l : List (AbstractState K)) (t : StateTreeNode K)
    (e : StateTreeError) (h : addAllStates t l = Except.error e) :
    e = StateTreeError.incompatibleDimensions ∨ e = StateTreeError.unableToAddState := by
  induction l generalizing t with
  | nil => rw [addAllStates] at h; simp at h
  | cons s l ih =>
    rw [addAllStates] at h
    cases hadd : t.add s with
    | ok t0 =>
      rw [hadd] at h
      exact ih t0 h
    | error e0 =>
      rw [hadd] at h
      injection h with h'
      exact h' ▸ add_error_kinds t s e0 hadd

theorem dimensionAssertLoop_no_error (l : List (AbstractState K))
    (hnz : ∀ s ∈ l, s.coordinates.length ≠ 0) :
    ∀ m, ∃ r, dimensionAssertLoop m l = Except.ok r := by
  induction l with
  | nil => exact fun m => ⟨m, rfl⟩
  | cons s l ih =>
    intro m
    rw [dimensionAssertLoop,
      if_neg (hnz s (List.mem_cons_self s l))]
    exact ih (fun s1 hs1 => hnz s1 (List.mem_cons_of_mem s hs1)) s.coordinates.length

theorem minMaxUpdateLoop_error_kind (numCoordinates : Nat) (l : List (AbstractState K))
    (mm : List K × List K) (e : StateTreeError)
    (h : minMaxUpdateLoop numCoordinates l mm = Except.error e) :
    e = StateTreeError.coordinateOutOfRange := by
  induction l generalizing mm with
  | nil => rw [minMaxUpdateLoop] at h; simp at h
  | cons s l ih =>
    rw [minMaxUpdateLoop] at h
    by_cases h1 : s.finiteExtent = false
    · rw [if_pos h1] at h
      exact ih _ h
    · rw [if_neg h1] at h
      by_cases h2 : s.coordinates.length < numCoordinates
      · rw [if_pos h2] at h
        cases h
        rfl
      · rw [if_neg h2] at h
        exact ih _ h

theorem stateTreeBoundingBox_error_kind (states : List (AbstractState K))
    (first : AbstractState K) (numCoordinates : Nat) (e : StateTreeError)
    (h : stateTreeBoundingBox states first numCoordinates = Except.error e) :
    e = StateTreeError.coordinateOutOfRange := by
  rw [stateTreeBoundingBox] at h
  cases hidx : states.findIdx? (fun s => s.finiteExtent) with
  | none => simp only [hidx] at h; exact absurd h (by simp)
  | some n0 =>
    simp only [hidx] at h
    by_cases hlen : (states.getD n0 first).coordinates.length < numCoordinates
    · rw [if_pos hlen] at h
      cases h
      rfl
    · rw [if_neg hlen] at h
      exact minMaxUpdateLoop_error_kind _ _ _ _ h

/-- Claim C2 counterexample: the StateSet constructor applied to the single
1D finite-extent state stC2 with maxDepth 2 yields a root node of coordinate
dimension 1 that created exactly one child node at the first push-down,
although 2^1 = 2 children are claimed. -/
theorem claim_C2_counterexample :
    (stateTreeFromStateSet [stC2] 2).map
        (fun t => (t.stateTreeNodes.length, t.center.length)) = Except.ok (1, 1) ∧
      (1 : Nat) ≠ 2 ^ 1 :=
  ⟨by with_unfolding_all decide, by decide⟩

/-- Claim C2 (amended): a StateTreeNode creates, at the first attempted
push-down, exactly numSpacePartitions child nodes; numSpacePartitions is
2^D for every node built with an explicit center (the explicit-center
constructors and all lazily created children), but it is 1 for the root
node built by the StateSet-based constructor, whose member-initializer
reads the center vector before the constructor body fills it. -/
theorem claim_C2_amended :
    (∀ (center : List K) (halfSize : K) (maxDepth : Nat),
      (mkNode center halfSize maxDepth).numSpacePartitions = 2 ^ center.length) ∧
    (∀ (t : StateTreeNode K), ∀ c ∈ mkChildren t,
      c.numSpacePartitions = 2 ^ t.center.length) ∧
    (∀ (fuel : Nat) (t : StateTreeNode K) (s : AbstractState K) (t' : StateTreeNode K),
      addRecursiveF fuel t s = some t' → t.stateTreeNodes = [] → t'.stateTreeNodes ≠ [] →
      t'.stateTreeNodes.length = t.numSpacePartitions) ∧
    (∀ (states : List (AbstractState K)) (maxDepth : Nat) (t : StateTreeNode K),
      stateTreeFromStateSet states maxDepth = Except.ok t → t.numSpacePartitions = 1) := by
  refine ⟨fun center halfSize maxDepth => rfl, mkChildren_partitions, ?_, ?_⟩
  · intro fuel t s t' h hemp hne
    rcases addRecursiveF_children fuel t s t' h with hl | ⟨_, hr⟩
    · rw [hemp] at hl
      simp at hl
      exact absurd hl hne
    · exact hr
  · intro states maxDepth t h
    rw [stateTreeFromStateSet] at h
    cases hh : states.head? with
    | none => simp only [hh] at h; exact absurd h (by simp)
    | some first =>
      simp only [hh] at h
      cases hd : dimensionAssertLoop first.coordinates.length (states.drop 1) with
      | error e => simp only [hd] at h; exact absurd h (by simp)
      | ok numCoordinates =>
        simp only [hd] at h
        cases hb : stateTreeBoundingBox states first numCoordinates with
        | error e => simp only [hb] at h; exact absurd h (by simp)
        | ok mm =>
          simp only [hb] at h
          rw [stateTreeAssemble] at h
          by_cases hlen : mm.1.length < numCoordinates
          · rw [if_pos hlen] at h
            exact absurd h (by simp)
          · rw [if_neg hlen] at h
            exact (addAllStates_frame _ _ _ h).2

/-- Witness for the amended claim C2 at the concrete StateSet {stC2}: the
constructed root stores exactly one space partition. -/
theorem claim_C2_amended_witness : c2Tree.numSpacePartitions = 1 :=
  (@claim_C2_amended ℚ _).2.2.2 [stC2] 2 c2Tree (by with_unfolding_all rfl)

/-- Claim C10 counterexample: the StateSet constructor applied to the mixed
set {c10A (2D), c10B (1D)}, each with at least one coordinate, reports the
dimension-incompatibility error raised from StateTreeNode::add during
construction, so a mixed-dimension StateSet is not accepted without
error. -/
theorem claim_C10_counterexample :
    (stateTreeFromStateSet [c10A, c10B] 1).map (fun _ => (0 : Nat)) =
        Except.error StateTreeError.incompatibleDimensions ∧
      c10A.coordinates.length ≠ 0 ∧ c10B.coordinates.length ≠ 0 ∧
      c10A.coordinates.length ≠ c10B.coordinates.length :=
  ⟨by with_unfolding_all decide, by decide, by decide, by decide⟩

/-- Claim C10 (amended): the StateSet constructor's own
dimension-compatibility assertion cannot fail when every state has at least
one coordinate (its condition is an assignment, not a comparison), so the
constructor never reports the different-dimensions assertion error; but it
does not accept mixed-dimension sets either: every successfully constructed
tree has all its input states of one common coordinate dimension, mixed
sets failing later in construction (in StateTreeNode::add's dimension check
or an out-of-range coordinate access). -/
theorem claim_C10_amended :
    (∀ (states : List (AbstractState K)) (maxDepth : Nat),
      (∀ s ∈ states, s.coordinates.length ≠ 0) →
      stateTreeFromStateSet states maxDepth ≠
        Except.error StateTreeError.differentDimensions) ∧
    (∀ (states : List (AbstractState K)) (maxDepth : Nat) (t : StateTreeNode K),
      stateTreeFromStateSet states maxDepth = Except.ok t →
      ∀ s1 ∈ states, ∀ s2 ∈ states,
        s1.coordinates.length = s2.coordinates.length) := by
  constructor
  · intro states maxDepth hnz h
    rw [stateTreeFromStateSet] at h
    cases hh : states.head? with
    | none => simp only [hh] at h; simp at h
    | some first =>
      simp only [hh] at h
      cases hd : dimensionAssertLoop first.coordinates.length (states.drop 1) with
      | error e =>
        obtain ⟨r, hr⟩ := dimensionAssertLoop_no_error (states.drop 1)
          (fun s hs => hnz s (List.mem_of_mem_drop hs)) first.coordinates.length
        rw [hd] at hr
        exact absurd hr (by simp)
      | ok numCoordinates =>
        simp only [hd] at h
        cases hb : stateTreeBoundingBox states first numCoordinates with
        | error e =>
          simp only [hb] at h
          have he := stateTreeBoundingBox_error_kind _ _ _ _ hb
          rw [he] at h
          simp at h
        | ok mm =>
          simp only [hb] at h
          rw [stateTreeAssemble] at h
          by_cases hlen : mm.1.length < numCoordinates
          · rw [if_pos hlen] at h
            simp at h
          · rw [if_neg hlen] at h
            rcases addAllStates_error_kinds _ _ _ h with h' | h' <;> simp at h'
  · intro states maxDepth t h s1 hs1 s2 hs2
    rw [stateTreeFromStateSet] at h
    cases hh : states.head? with
    | none => simp only [hh] at h; simp at h
    | some first =>
      simp only [hh] at h
      cases hd : dimensionAssertLoop first.coordinates.length (states.drop 1) with
      | error e => simp only [hd] at h; simp at h
      | ok numCoordinates =>
        simp only [hd] at h
        cases hb : stateTreeBoundingBox states first numCoordinates with
        | error e => simp only [hb] at h; simp at h
        | ok mm =>
          simp only [hb] at h
          rw [stateTreeAssemble] at h
          by_cases hlen : mm.1.length < numCoordinates
          · rw [if_pos hlen] at h
            simp at h
          · rw [if_neg hlen] at h
            have hd1 := addAllStates_dims _ _ _ h s1 hs1
            have hd2 := addAllStates_dims _ _ _ h s2 hs2
            rw [hd1, hd2]

/-- Witness for the amended claim C10: a StateSet of two 1D states of equal
dimension never triggers the different-dimensions assertion. -/
theorem claim_C10_amended_witness :
    stateTreeFromStateSet [c10B, c10B] 1 ≠
      Except.error StateTreeError.differentDimensions :=
  (@claim_C10_amended ℚ _).1 [c10B, c10B] 1 (by decide)

/-! Iteration-engine lemmas for the IDX_SUM_ALL reduction. -/

theorem lastNegIdx_none_iff (l : List Int) :
    lastNegIdx l = none ↔ ∀ x ∈ l, 0 ≤ x := by
  induction l with
  | nil => simp [lastNegIdx]
  | cons x xs ih =>
    rw [lastNegIdx]
    cases hxs : lastNegIdx xs with
    | some j =>
      simp only []
      constructor
      · intro h; exact absurd h (by simp)
      · intro h
        have := ih.mpr (fun y hy => h y (List.mem_cons_of_mem x hy))
        rw [hxs] at this
        exact absurd this (by simp)
    | none =>
      simp only []
      by_cases hx : x < 0
      · rw [if_pos hx]
        constructor
        · intro h; exact absurd h (by simp)
        · intro h
          exact absurd (h x (List.mem_cons_self x xs)) (by omega)
      · rw [if_neg hx]
        constructor
        · intro _ y hy
          rcases List.mem_cons.mp hy with rfl | hy
          · omega
          · exact (ih.mp hxs) y hy
        · intro _; rfl

theorem getD_set_self (l : List Int) (i : Nat) (k : Int) (h : i < l.length) :
    (l.set i k).getD i 0 = k := by
  induction l generalizing i with
  | nil => simp at h
  | cons x xs ih =>
    cases i with
    | zero => rfl
    | succ i =>
      rw [List.set_cons_succ, List.getD_cons_succ]
      exact ih i (by simpa using h)

theorem getD_set_ne (l : List Int) (i j : Nat) (k : Int) (h : i ≠ j) :
    (l.set i k).getD j 0 = l.getD j 0 := by
  induction l generalizing i j with
  | nil => simp [List.set_nil]
  | cons x xs ih =>
    cases i with
    | zero =>
      cases j with
      | zero => exact absurd rfl h
      | succ j => rfl
    | succ i =>
      cases j with
      | zero => rfl
      | succ j =>
        rw [List.set_cons_succ, List.getD_cons_succ, List.getD_cons_succ]
        exact ih i j (fun hc => h (by rw [hc]))

theorem set_all_nonneg (pattern : List Int) (i : Nat)
    (hconc : ∀ j < pattern.length, j ≠ i → 0 ≤ pattern.getD j 0) (k : Nat) :
    ∀ x ∈ pattern.set i (Int.ofNat k), 0 ≤ x := by
  intro x hx
  obtain ⟨j, hj, hxe⟩ := List.mem_iff_getElem.mp hx
  have hj' : j < pattern.length := by
    rw [← List.length_set pattern i (Int.ofNat k)]
    exact hj
  have hgd : (pattern.set i (Int.ofNat k)).getD j 0 = x := by
    rw [List.getD_eq_getElem _ _ hj]
    exact hxe
  by_cases hij : j = i
  · subst hij
    rw [getD_set_self pattern j _ hj'] at hgd
    rw [← hgd]
    exact Int.ofNat_nonneg k
  · rw [getD_set_ne pattern i j _ (fun hc => hij hc.symm)] at hgd
    rw [← hgd]
    exact hconc j hj' hij

theorem lastNegIdx_single (l : List Int) (i : Nat) (hi : i < l.length)
    (hneg : l.getD i 0 < 0)
    (hafter : ∀ j, i < j → j < l.length → 0 ≤ l.getD j 0) :
    lastNegIdx l = some i := by
  induction l generalizing i with
  | nil => simp at hi
  | cons x xs ih =>
    rw [lastNegIdx]
    cases i with
    | zero =>
      have hnone : lastNegIdx xs = none := by
        rw [lastNegIdx_none_iff]
        intro y hy
        obtain ⟨j, hj, hye⟩ := List.mem_iff_getElem.mp hy
        have : (x :: xs).getD (j + 1) 0 = y := by
          rw [List.getD_cons_succ, List.getD_eq_getElem _ _ hj]
          exact hye
        rw [← this]
        exact hafter (j + 1) (by omega) (by simpa using hj)
      rw [hnone]
      simp only []
      rw [if_pos (by simpa using hneg)]
    | succ i =>
      have := ih i (by simpa using hi) (by simpa using hneg)
        (fun j hj1 hj2 => by
          have := hafter (j + 1) (by omega) (by simpa using hj2)
          rwa [List.getD_cons_succ] at this)
      rw [this]

theorem calcTraceAux_concrete (ranges : List Int) (fuel : Nat) (pattern : List Int)
    (off mult : Int) (h : ∀ x ∈ pattern, 0 ≤ x) :
    calcTraceAux ranges (fuel + 1) pattern off mult = [(pattern, off)] := by
  rw [calcTraceAux, (lastNegIdx_none_iff pattern).mpr h]

theorem calcLoop_sum (ranges : List Int) (fuel i : Nat) (pattern : List Int)
    (offMult nextMult : Int)
    (hconc : ∀ k : Nat, ∀ x ∈ pattern.set i (Int.ofNat k), 0 ≤ x) :
    ∀ (m n : Nat) (off : Int),
      calcLoop (fun pat o mu => calcTraceAux ranges (fuel + 1) pat o mu) i true pattern
        offMult nextMult n m off =
      (List.range' n m).map (fun k => (pattern.set i (Int.ofNat k), off)) := by
  intro m
  induction m with
  | zero => intro n off; rfl
  | succ m ih =>
    intro n off
    rw [calcLoop]
    rw [calcTraceAux_concrete ranges fuel _ _ _ (hconc n)]
    rw [show (if (true : Bool) then off else off + offMult) = off from rfl]
    rw [ih (n + 1) off, List.range'_succ, List.map_cons]
    rfl

theorem writeLDOS_untouched (G : List Int → List Int → Nat → Complex)
    (energyResolution : Nat) (index : List Int) (offset : Int) (m q : Nat)
    (buf : Int → ℝ) (hq : m ≤ q) :
    writeLDOS G energyResolution index offset m buf
        ((energyResolution : Int) * offset + q) =
      buf ((energyResolution : Int) * offset + q) := by
  induction m generalizing buf with
  | zero => rfl
  | succ m ih =>
    rw [writeLDOS]
    rw [Function.update_noteq (by omega)]
    exact ih buf (by omega)

theorem writeLDOS_value (G : List Int → List Int → Nat → Complex)
    (energyResolution : Nat) (index : List Int) (offset : Int) (m n : Nat)
    (buf : Int → ℝ) (hn : n < m) :
    writeLDOS G energyResolution index offset m buf
        ((energyResolution : Int) * offset + n) =
      buf ((energyResolution : Int) * offset + n) -
        (G index index n).im / Real.pi := by
  induction m generalizing buf with
  | zero => omega
  | succ m ih =>
    rw [writeLDOS]
    by_cases hnm : n = m
    · subst hnm
      rw [Function.update_same]
      rw [writeLDOS_untouched G energyResolution index offset n n buf (le_refl n)]
    · rw [Function.update_noteq (by omega)]
      exact ih buf (by omega)

theorem applyLDOSTrace_sum (G : List Int → List Int → Nat → Complex)
    (energyResolution : Nat) (slices : List (List Int)) (off : Int) (n : Nat)
    (hn : n < energyResolution) :
    ∀ buf : Int → ℝ,
      applyLDOSTrace G energyResolution (slices.map (fun idx => (idx, off))) buf
          ((energyResolution : Int) * off + n) =
        buf ((energyResolution : Int) * off + n) -
          ((slices.map (fun idx => (G idx idx n).im)).sum) / Real.pi := by
  induction slices with
  | nil => intro buf; simp [applyLDOSTrace]
  | cons idx rest ih =>
    intro buf
    rw [List.map_cons, applyLDOSTrace, ih, writeLDOS_value G energyResolution idx off
      energyResolution n buf hn, List.map_cons, List.sum_cons]
    ring

/-- Claim C6: for a pattern with exactly one IDX_SUM_ALL subindex of range
R, all other subindices concrete, the iteration engine invokes the reduction
callback R times, every invocation carrying the same (unadvanced) offset as
an iteration at a concrete coordinate of that subindex, and the
corresponding computeLDOS output slot accumulates the sum of the R
per-slice contributions -Im(G)/pi. -/
theorem claim_C6_sum_all_additivity (G : List Int → List Int → Nat → Complex)
    (energyResolution : Nat) (pattern ranges : List Int) (i : Nat)
    (hi : i < pattern.length)
    (hsum : pattern.getD i 0 = IDX_SUM_ALL)
    (hconc : ∀ j < pattern.length, j ≠ i → 0 ≤ pattern.getD j 0)
    (hlen : pattern.length = ranges.length) :
    (calculateLDOS G energyResolution pattern ranges).trace =
      (List.range (ranges.getD i 0).toNat).map
        (fun k => (pattern.set i (Int.ofNat k), (0 : Int))) ∧
    ∀ n < energyResolution,
      (calculateLDOS G energyResolution pattern ranges).finalBuffer (n : Int) =
        -(((List.range (ranges.getD i 0).toNat).map
            (fun k => (G (pattern.set i (Int.ofNat k)) (pattern.set i (Int.ofNat k)) n).im)).sum)
          / Real.pi := by
  have hforced : (forceRanges pattern ranges).getD i 0 = ranges.getD i 0 := by
    rw [forceRanges, getD_zipWith _ _ _ _ hi (hlen ▸ hi), if_neg (by rw [hsum, IDX_SUM_ALL]; omega)]
  have hmem : pattern.getD i 0 ∈ pattern := by
    rw [List.getD_eq_getElem _ _ hi]
    exact List.getElem_mem hi
  have hpos : 1 ≤ negCount pattern := by
    rw [negCount]
    rw [Nat.succ_le_iff]
    rw [List.countP_pos_iff]
    exact ⟨pattern.getD i 0, hmem, by rw [hsum]; rfl⟩
  obtain ⟨m, hm⟩ : ∃ m, negCount pattern = m + 1 := ⟨negCount pattern - 1, by omega⟩
  have htrace : calculate pattern (forceRanges pattern ranges) 0 1 =
      (List.range (ranges.getD i 0).toNat).map
        (fun k => (pattern.set i (Int.ofNat k), (0 : Int))) := by
    rw [calculate, hm]
    rw [calcTraceAux]
    rw [lastNegIdx_single pattern i hi (by rw [hsum, IDX_SUM_ALL]; omega)
      (fun j hj1 hj2 => hconc j hj2 (by omega))]
    simp only []
    rw [if_neg (by rw [hsum, IDX_SUM_ALL]; omega)]
    rw [show (pattern.getD i 0 == IDX_SUM_ALL) = true by rw [hsum]; simp]
    rw [calcLoop_sum (forceRanges pattern ranges) m i pattern 1 1
      (set_all_nonneg pattern i hconc)]
    rw [hforced, ← List.range_eq_range']
  constructor
  · exact htrace
  · intro n hn
    show applyLDOSTrace G energyResolution (calculate pattern (forceRanges pattern ranges) 0 1)
      (fun _ => 0) (n : Int) = _
    rw [htrace]
    have hmm : (List.range (ranges.getD i 0).toNat).map
        (fun k => (pattern.set i (Int.ofNat k), (0 : Int))) =
        ((List.range (ranges.getD i 0).toNat).map
          (fun k => pattern.set i (Int.ofNat k))).map (fun idx => (idx, (0 : Int))) := by
      rw [List.map_map]
      rfl
    rw [hmm]
    have := applyLDOSTrace_sum G energyResolution
      ((List.range (ranges.getD i 0).toNat).map (fun k => pattern.set i (Int.ofNat k)))
      0 n hn (fun _ => 0)
    rw [show (energyResolution : Int) * 0 + n = (n : Int) by ring] at this
    rw [this, List.map_map]
    rw [show (0 : ℝ) - ((List.range (ranges.getD i 0).toNat).map
      ((fun idx => (G idx idx n).im) ∘ fun k => pattern.set i (Int.ofNat k))).sum / Real.pi =
      -(((List.range (ranges.getD i 0).toNat).map
      ((fun idx => (G idx idx n).im) ∘ fun k => pattern.set i (Int.ofNat k))).sum) / Real.pi by
        ring]
    rfl

/-- Witness for claim C6 at the concrete pattern {IDX_SUM_ALL} with range 3
and energy resolution 1. -/
theorem claim_C6_witness :
    (calculateLDOS gZero 1 [IDX_SUM_ALL] [3]).trace =
      (List.range (([3] : List Int).getD 0 0).toNat).map
        (fun k => (([IDX_SUM_ALL] : List Int).set 0 (Int.ofNat k), (0 : Int))) ∧
    ∀ n : Nat, n < 1 →
      (calculateLDOS gZero 1 [IDX_SUM_ALL] [3]).finalBuffer (n : Int) =
        -(((List.range (([3] : List Int).getD 0 0).toNat).map
            (fun k => (gZero (([IDX_SUM_ALL] : List Int).set 0 (Int.ofNat k))
              (([IDX_SUM_ALL] : List Int).set 0 (Int.ofNat k)) n).im)).sum)
          / Real.pi :=
  claim_C6_sum_all_additivity gZero 1 [IDX_SUM_ALL] [3] 0 (by decide) (by decide)
    (by decide) (by decide)

/-! Spatial query lemmas. -/

theorem foldl_absmax_le_self (l : List K) :
    ∀ a : K, a ≤ l.foldl (fun acc x => if acc < |x| then |x| else acc) a := by
  induction l with
  | nil => intro a; exact le_refl a
  | cons x l ih =>
    intro a
    rw [List.foldl_cons]
    refine le_trans ?_ (ih _)
    by_cases h : a < |x|
    · rw [if_pos h]; exact le_of_lt h
    · rw [if_neg h]

theorem foldl_absmax_mem (l : List K) :
    ∀ a : K, ∀ x ∈ l, |x| ≤ l.foldl (fun acc x => if acc < |x| then |x| else acc) a := by
  induction l with
  | nil => simp
  | cons y l ih =>
    intro a x hx
    rw [List.foldl_cons]
    rcases List.mem_cons.mp hx with rfl | hx
    · refine le_trans ?_ (foldl_absmax_le_self l _)
      by_cases h : a < |x|
      · rw [if_pos h]
      · rw [if_neg h]
        exact not_lt.mp h
    · exact ih _ x hx

theorem addRecursiveF_contained (fuel : Nat) (t : StateTreeNode K) (s : AbstractState K)
    (t' : StateTreeNode K) (h : addRecursiveF fuel t s = some t')
    (hfin : s.finiteExtent = true) :
    largestRelativeCoordinate t s + s.extent ≤ t.halfSize := by
  cases fuel with
  | zero => simp [addRecursiveF] at h
  | succ fuel =>
    rw [addRecursiveF, if_neg (by simp [hfin])] at h
    by_cases h2 : largestRelativeCoordinate t s + s.extent > t.halfSize
    · rw [if_pos h2] at h
      simp at h
    · exact not_lt.mp h2

theorem relative_bound (t : StateTreeNode K) (s : AbstractState K)
    (hcont : largestRelativeCoordinate t s + s.extent ≤ t.halfSize)
    (hpos : 0 < s.extent) :
    ∀ n < t.center.length, |s.coordinates.getD n 0 - t.center.getD n 0| ≤ t.halfSize := by
  intro n hn
  have hmem : (s.coordinates.getD n 0 - t.center.getD n 0) ∈ relativeCoordinates t s := by
    rw [relativeCoordinates]
    exact List.mem_map.mpr ⟨n, List.mem_range.mpr hn, rfl⟩
  have h1 := foldl_absmax_mem (relativeCoordinates t s) 0 _ hmem
  rw [largestRelativeCoordinate] at hcont
  linarith

theorem distToCenter_le (t : StateTreeNode ℝ) (x : List ℝ)
    (hb : ∀ n < t.center.length, |x.getD n 0 - t.center.getD n 0| ≤ t.halfSize) :
    distToCenter t x ≤ Real.sqrt (t.center.length * t.halfSize ^ 2) := by
  rw [distToCenter]
  apply Real.sqrt_le_sqrt
  have hstep : ((List.range t.center.length).map
      (fun n => (x.getD n 0 - t.center.getD n 0) ^ 2)).sum ≤
      ((List.range t.center.length).map (fun _ => t.halfSize ^ 2)).sum := by
    apply List.sum_le_sum
    intro n hn
    have hbn := hb n (List.mem_range.mp hn)
    calc (x.getD n 0 - t.center.getD n 0) ^ 2
        = |x.getD n 0 - t.center.getD n 0| ^ 2 := (sq_abs _).symm
      _ ≤ t.halfSize ^ 2 := by
          apply pow_le_pow_left (abs_nonneg _) hbn
  refine le_trans hstep ?_
  rw [List.map_const', List.sum_replicate, List.length_range, nsmul_eq_mul]

theorem distToState_self (coords : List ℝ) (s : AbstractState ℝ)
    (hc : s.coordinates = coords) : distToState coords s = 0 := by
  rw [distToState, hc]
  have : ((List.range coords.length).map
      (fun n => (coords.getD n 0 - coords.getD n 0) ^ 2)).sum = 0 := by
    rw [show (fun n => (coords.getD n 0 - coords.getD n 0) ^ 2) = fun _ => (0 : ℝ) by
      funext n; rw [sub_self]; ring]
    rw [List.map_const', List.sum_replicate, smul_zero]
  rw [this, Real.sqrt_zero]

theorem query_mem_here (t : StateTreeNode ℝ) (s : AbstractState ℝ)
    (hmem : s ∈ t.states)
    (hnp : ¬ distToCenter t s.coordinates >
      Real.sqrt (t.center.length * t.halfSize ^ 2) + 0)
    (hpos : 0 < s.extent) :
    s ∈ getOverlappingStatesRecursive t s.coordinates 0 := by
  rw [getOverlappingStatesRecursive, if_neg hnp]
  apply List.mem_append_left
  apply List.mem_filter.mpr
  refine ⟨hmem, ?_⟩
  rw [decide_eq_true_eq, distToState_self s.coordinates s rfl, zero_add]
  exact hpos

theorem query_mem_child (t : StateTreeNode ℝ) (c : StateTreeNode ℝ)
    (coords : List ℝ) (extent : ℝ) (x : AbstractState ℝ)
    (hc : c ∈ t.stateTreeNodes)
    (hnp : ¬ distToCenter t coords >
      Real.sqrt (t.center.length * t.halfSize ^ 2) + extent)
    (hx : x ∈ getOverlappingStatesRecursive c coords extent) :
    x ∈ getOverlappingStatesRecursive t coords extent := by
  rw [getOverlappingStatesRecursive, if_neg hnp]
  apply List.mem_append_right
  rw [List.mem_flatten]
  refine ⟨getOverlappingStatesRecursive c coords extent, ?_, hx⟩
  exact List.mem_map.mpr ⟨⟨c, hc⟩, List.mem_attach _ _, rfl⟩

theorem addRecursiveF_query_mem :
    ∀ (fuel : Nat) (t : StateTreeNode ℝ) (s : AbstractState ℝ) (t' : StateTreeNode ℝ),
      addRecursiveF fuel t s = some t' → s.finiteExtent = true → 0 < s.extent →
      s ∈ getOverlappingStatesRecursive t' s.coordinates 0 := by
  intro fuel
  induction fuel with
  | zero =>
    intro t s t' h
    simp [addRecursiveF] at h
  | succ fuel ih =>
    intro t s t' h hfin hpos
    have hcont := addRecursiveF_contained (fuel + 1) t s t' h hfin
    have hnp : ¬ distToCenter t s.coordinates >
        Real.sqrt (t.center.length * t.halfSize ^ 2) + 0 := by
      push_neg
      rw [add_zero]
      exact distToCenter_le t s.coordinates (relative_bound t s hcont hpos)
    rw [addRecursiveF, if_neg (by simp [hfin]), if_neg (not_lt.mpr hcont)] at h
    by_cases h3 : t.maxDepth = 0
    · rw [if_pos h3] at h
      cases h
      exact query_mem_here _ s (List.mem_append_right _ (List.mem_singleton.mpr rfl)) hnp hpos
    · rw [if_neg h3] at h
      cases htry : tryAddToEach (fun c => addRecursiveF fuel c s)
          (if t.stateTreeNodes.isEmpty then mkChildren t else t.stateTreeNodes) with
      | none =>
        rw [htry] at h
        cases h
        exact query_mem_here _ s (List.mem_append_right _ (List.mem_singleton.mpr rfl)) hnp hpos
      | some children =>
        rw [htry] at h
        cases h
        obtain ⟨pre, c, c', post, hcs, hfc, hcs'⟩ := tryAddToEach_structure _ _ _ htry
        refine query_mem_child _ c' s.coordinates 0 s ?_ hnp (ih c s c' hfc hfin hpos)
        rw [hcs']
        exact List.mem_append_right _ (List.mem_cons_self _ _)

/-- Claim C3 counterexample: the finite-extent state c3Zero (extent 0) is
successfully inserted into the 1D root c3Tree, yet querying at its own
coordinates with query extent 0 returns the empty list: the strict overlap
comparison distance < extent + state extent fails at 0 < 0, a false
negative. -/
theorem claim_C3_counterexample :
    c3Tree.add c3Zero = Except.ok c3TreeZ ∧
    c3Zero.finiteExtent = true ∧
    getOverlappingStates c3TreeZ c3Zero.coordinates 0 = Except.ok [] := by
  have hlarge : largestRelativeCoordinate c3Tree c3Zero = 0 := by
    rw [largestRelativeCoordinate, relativeCoordinates]
    show (List.map _ (List.range 1)).foldl _ 0 = 0
    rw [show List.range 1 = [0] from rfl, List.map_singleton, List.foldl_cons, List.foldl_nil]
    norm_num [c3Zero, c3Tree, mkNode]
  have hdc : distToCenter c3TreeZ c3Zero.coordinates = 0 := by
    rw [distToCenter]
    show Real.sqrt (List.map _ (List.range 1)).sum = 0
    rw [show List.range 1 = [0] from rfl, List.map_singleton, List.sum_singleton]
    simp [c3Zero, c3TreeZ, c3Tree, mkNode]
  have hds : distToState c3Zero.coordinates c3Zero = 0 := distToState_self _ _ rfl
  refine ⟨?_, rfl, ?_⟩
  · rw [StateTreeNode.add,
      if_pos (show c3Zero.coordinates.length = c3Tree.center.length from rfl)]
    have hrec : addRecursiveF (c3Tree.maxDepth + 1) c3Tree c3Zero = some c3TreeZ := by
      rw [addRecursiveF, if_neg (by simp [c3Zero])]
      rw [if_neg (by rw [hlarge]; show ¬ (0 : ℝ) + 0 > 1; norm_num)]
      rw [if_pos (show c3Tree.maxDepth = 0 from rfl)]
      rfl
    rw [hrec]
  · rw [getOverlappingStates,
      if_pos (show c3Zero.coordinates.length = c3TreeZ.center.length from rfl),
      getOverlappingStatesRecursive]
    rw [if_neg (by
      rw [hdc]
      rw [show Real.sqrt ((c3TreeZ.center.length : ℝ) * c3TreeZ.halfSize ^ 2) = 1 by
        rw [show ((c3TreeZ.center.length : ℝ) * c3TreeZ.halfSize ^ 2) = 1 by
          norm_num [c3TreeZ, c3Tree, mkNode]]
        exact Real.sqrt_one]
      show ¬ (0 : ℝ) > 1 + 0
      norm_num)]
    rw [show (c3TreeZ.states.filter fun s =>
        decide (distToState c3Zero.coordinates s < 0 + s.extent)) =
          ([] : List (AbstractState ℝ)) from by
      show List.filter _ [c3Zero] = []
      rw [List.filter_cons,
        show (decide (distToState c3Zero.coordinates c3Zero < 0 + c3Zero.extent)) = false from by
          rw [decide_eq_false_iff_not, hds]
          show ¬ (0 : ℝ) < 0 + 0
          norm_num]
      simp]
    rfl

/-- Claim C3 (amended): every state with finite positive extent that was
successfully inserted via StateTreeNode::add is returned by
getOverlappingStates at its own coordinates with query extent 0 — no false
negative; a state of extent exactly 0 is excluded by the strict overlap
comparison (see the counterexample). -/
theorem claim_C3_query_finds_inserted (t : StateTreeNode ℝ) (s : AbstractState ℝ)
    (t' : StateTreeNode ℝ) (hadd : t.add s = Except.ok t')
    (hfin : s.finiteExtent = true) (hpos : 0 < s.extent) :
    getOverlappingStates t' s.coordinates 0 =
      Except.ok (getOverlappingStatesRecursive t' s.coordinates 0) ∧
    s ∈ getOverlappingStatesRecursive t' s.coordinates 0 := by
  have hdim := add_dims t s t' hadd
  rw [StateTreeNode.add, if_pos hdim] at hadd
  cases hrec : addRecursiveF (t.maxDepth + 1) t s with
  | none => rw [hrec] at hadd; simp at hadd
  | some t0 =>
    rw [hrec] at hadd
    injection hadd with h0
    subst h0
    constructor
    · rw [getOverlappingStates,
        if_pos (by rw [(addRecursiveF_frame _ _ _ _ hrec).1]; exact hdim)]
    · exact addRecursiveF_query_mem _ t s t0 hrec hfin hpos

/-- Witness for the amended claim C3 at a concrete 1D tree and a state of
extent 1/2 inserted at its center. -/
theorem claim_C3_witness :
    getOverlappingStates c3TreeP c3Pos.coordinates 0 =
      Except.ok (getOverlappingStatesRecursive c3TreeP c3Pos.coordinates 0) ∧
    c3Pos ∈ getOverlappingStatesRecursive c3TreeP c3Pos.coordinates 0 :=
  claim_C3_query_finds_inserted c3Tree c3Pos c3TreeP
    (by
      rw [StateTreeNode.add,
        if_pos (show c3Pos.coordinates.length = c3Tree.center.length from rfl)]
      rw [show addRecursiveF (c3Tree.maxDepth + 1) c3Tree c3Pos = some c3TreeP from by
        rw [addRecursiveF, if_neg (by simp [c3Pos])]
        rw [if_neg (by
          rw [show largestRelativeCoordinate c3Tree c3Pos = 0 from by
            rw [largestRelativeCoordinate, relativeCoordinates]
            show (List.map _ (List.range 1)).foldl _ 0 = 0
            rw [show List.range 1 = [0] from rfl, List.map_singleton, List.foldl_cons,
              List.foldl_nil]
            norm_num [c3Pos, c3Tree, mkNode]]
          show ¬ (0 : ℝ) + 1 / 2 > 1
          norm_num)]
        rw [if_pos (show c3Tree.maxDepth = 0 from rfl)]
        rfl])
    rfl (by show (0 : ℝ) < 1 / 2; norm_num)

end TBTK
